import Mathlib

/-!
Verification of the cmft image library (src/cmft/image.cpp) against its
natural-language specification.

Modelling conventions:
  * Machine integers (uint32_t, uint8_t, ...) are modelled as Nat; the code
    under study never relies on wrap-around in the verified paths.
  * Byte buffers (the `void* m_data` of `struct Image` and whole files) are
    modelled as total functions `Nat → Nat` (byte index to byte value)
    together with an explicit size, or as `List Nat` for serialized streams.
    `malloc` yields a buffer with arbitrary contents: operations that
    allocate take the arbitrary initial contents as an explicit argument.
  * IEEE float arithmetic is idealised as exact rational arithmetic (ℚ);
    bit-level float storage (binary16/binary32) is decoded exactly and
    encoded with round-to-nearest-even.
  * memcpy into a buffer is a pointwise overwrite (`writeRange`), loops are
    fold applications (`forFold`), in iteration order.
-/

namespace cmft

set_option maxRecDepth 4096

/-! ## Generic buffer machinery -/

/-- Iterate `step k` for `k = 0, 1, ..., n-1` in order (`step (n-1)` applied
last), starting from `a`. This models a C `for` loop over a state. -/
def forFold {α : Type _} (n : Nat) (step : Nat → α → α) (a : α) : α :=
  match n with
  | 0 => a
  | m + 1 => step m (forFold m step a)

/-- Model of `memcpy(dst + off, srcBytes, len)` on a buffer viewed as a total
function: indices in `[off, off+len)` now read from `src`, all others are
unchanged. -/
def writeRange {γ : Type _} (buf : Nat → γ) (off len : Nat) (src : Nat → γ) : Nat → γ :=
  fun i => if off ≤ i ∧ i < off + len then src (i - off) else buf i

/-- Model of `cmft_swap(a, b, len)` (src/cmft/base/utils.h): exchange the two
`len`-byte regions starting at `a` and at `b`. -/
def cmft_swapF {γ : Type _} (buf : Nat → γ) (a b len : Nat) : Nat → γ :=
  fun i =>
    if a ≤ i ∧ i < a + len then buf (b + (i - a))
    else if b ≤ i ∧ i < b + len then buf (a + (i - b))
    else buf i

theorem writeRange_in {γ : Type _} (buf : Nat → γ) (off len : Nat) (src : Nat → γ)
    (i : Nat) (h1 : off ≤ i) (h2 : i < off + len) :
    writeRange buf off len src i = src (i - off) := by
  simp [writeRange, h1, h2]

theorem writeRange_out {γ : Type _} (buf : Nat → γ) (off len : Nat) (src : Nat → γ)
    (i : Nat) (h : ¬ (off ≤ i ∧ i < off + len)) :
    writeRange buf off len src i = buf i := by
  simp only [writeRange]
  split
  · exact absurd (by assumption) h
  · rfl

/-- Value at `i` after a fold of buffer transformations none of which touches
index `i`. -/
theorem forFold_out {γ : Type _} (n : Nat) (step : Nat → (Nat → γ) → (Nat → γ))
    (a : Nat → γ) (i : Nat)
    (h : ∀ k, k < n → ∀ g : Nat → γ, step k g i = g i) :
    forFold n step a i = a i := by
  induction n with
  | zero => rfl
  | succ m ih =>
      show step m (forFold m step a) i = a i
      rw [h m (Nat.lt_succ_self m), ih (fun k hk g => h k (Nat.lt_succ_of_lt hk) g)]

/-- Value at `i` after a fold in which step `j` writes the fixed value `v` at
`i` (independently of the buffer it is given) and every later step leaves `i`
alone. -/
theorem forFold_hit {γ : Type _} (n : Nat) (step : Nat → (Nat → γ) → (Nat → γ))
    (a : Nat → γ) (i j : Nat) (v : γ) (hj : j < n)
    (hval : ∀ g : Nat → γ, step j g i = v)
    (hafter : ∀ k, j < k → k < n → ∀ g : Nat → γ, step k g i = g i) :
    forFold n step a i = v := by
  induction n with
  | zero => exact absurd hj (Nat.not_lt_zero j)
  | succ m ih =>
      show step m (forFold m step a) i = v
      rcases Nat.lt_succ_iff_lt_or_eq.mp hj with h | h
      · rw [hafter m h (Nat.lt_succ_self m)]
        exact ih h (fun k hk1 hk2 g => hafter k hk1 (Nat.lt_succ_of_lt hk2) g)
      · subst h; exact hval _

/-- Prefix sums of a size sequence: `psum sz n = sz 0 + ... + sz (n-1)`. -/
def psum (sz : Nat → Nat) : Nat → Nat
  | 0 => 0
  | n + 1 => psum sz n + sz n

theorem psum_mono (sz : Nat → Nat) {m n : Nat} (h : m ≤ n) :
    psum sz m ≤ psum sz n := by
  induction n with
  | zero => simp_all
  | succ k ih =>
      rcases Nat.lt_succ_iff_lt_or_eq.mp (Nat.lt_succ_of_le h) with h1 | h1
      · exact Nat.le_trans (ih (Nat.lt_succ_iff.mp h1)) (Nat.le_add_right _ _)
      · subst h1; exact Nat.le_refl _

theorem psum_block_le (sz : Nat → Nat) {k n : Nat} (h : k < n) :
    psum sz k + sz k ≤ psum sz n := by
  have : psum sz (k + 1) ≤ psum sz n := psum_mono sz h
  simpa [psum] using this

/-- Every index below the total prefix sum falls in exactly one block. -/
theorem psum_decomp (sz : Nat → Nat) (n i : Nat) (h : i < psum sz n) :
    ∃ k, k < n ∧ psum sz k ≤ i ∧ i < psum sz k + sz k := by
  induction n with
  | zero => simp [psum] at h
  | succ m ih =>
      by_cases hc : i < psum sz m
      · obtain ⟨k, hk, h1, h2⟩ := ih hc
        exact ⟨k, Nat.lt_succ_of_lt hk, h1, h2⟩
      · exact ⟨m, Nat.lt_succ_self m, Nat.le_of_not_lt hc, by simpa [psum] using h⟩

/-! ## Texture formats and the image data model (cmft/image.h usage as seen
in src/cmft/image.cpp) -/

inductive TextureFormat where
  | BGR8 | RGB8 | RGB16 | RGB16F | RGB32F | RGBE
  | BGRA8 | RGBA8 | RGBA16 | RGBA16F | RGBA32F
  | Unknown
  deriving DecidableEq, Repr

open TextureFormat

/-- Row of the `s_imageDataInfo` table: bytes per pixel, channel count,
has-alpha flag, pixel data type tag. -/
structure ImageDataInfo where
  m_bytesPerPixel : Nat
  m_numChanels : Nat
  m_hasAlpha : Nat
  m_pixelType : Nat

/-- PixelDataType tags, in declaration order (UINT8, UINT16, UINT32,
HALF_FLOAT, FLOAT). -/
def pdtUINT8 : Nat := 0
def pdtUINT16 : Nat := 1
def pdtUINT32 : Nat := 2
def pdtHALF_FLOAT : Nat := 3
def pdtFLOAT : Nat := 4

/-- Table `s_imageDataInfo` of src/cmft/image.cpp. -/
def getImageDataInfo : TextureFormat → ImageDataInfo
  | BGR8    => ⟨3, 3, 0, pdtUINT8⟩
  | RGB8    => ⟨3, 3, 0, pdtUINT8⟩
  | RGB16   => ⟨6, 3, 0, pdtUINT16⟩
  | RGB16F  => ⟨6, 3, 0, pdtHALF_FLOAT⟩
  | RGB32F  => ⟨12, 3, 0, pdtFLOAT⟩
  | RGBE    => ⟨4, 4, 0, pdtUINT8⟩
  | BGRA8   => ⟨4, 4, 1, pdtUINT8⟩
  | RGBA8   => ⟨4, 4, 1, pdtUINT8⟩
  | RGBA16  => ⟨8, 4, 1, pdtUINT16⟩
  | RGBA16F => ⟨8, 4, 1, pdtHALF_FLOAT⟩
  | RGBA32F => ⟨16, 4, 1, pdtFLOAT⟩
  | Unknown => ⟨0, 0, 0, 0⟩

def MAX_MIP_NUM : Nat := 16
def CUBE_FACE_NUM : Nat := 6

/-- The in-memory image: width, height, format, mip count, face count, byte
count, and the byte buffer (a total function; only indices below
`m_dataSize` are meaningful). -/
structure Image where
  m_width : Nat
  m_height : Nat
  m_format : TextureFormat
  m_numMips : Nat
  m_numFaces : Nat
  m_dataSize : Nat
  m_data : Nat → Nat

/-- Bit-identical images: equal metadata and equal bytes over the whole data
size. -/
def Image.Eqv (a b : Image) : Prop :=
  a.m_width = b.m_width ∧ a.m_height = b.m_height ∧ a.m_format = b.m_format ∧
  a.m_numMips = b.m_numMips ∧ a.m_numFaces = b.m_numFaces ∧
  a.m_dataSize = b.m_dataSize ∧ ∀ i, i < a.m_dataSize → a.m_data i = b.m_data i

/-! ## Layout arithmetic (mip chains, face stacks) -/

/-- Width or height of mip level `m`: `max(1, base >> m)`. -/
def mipDim (base m : Nat) : Nat := max 1 (base >>> m)

/-- Byte size of one face at mip level `m`. -/
def levelSize (w h bpp m : Nat) : Nat := mipDim w m * mipDim h m * bpp

/-- Byte size of one full mip chain of `n` levels (`imageGetMipOffsets`
accumulation for one face). -/
def chainSize (w h bpp n : Nat) : Nat := psum (levelSize w h bpp) n

/-- Entry `[face][mip]` of the offset table computed by
`imageGetMipOffsets`: full chains of all earlier faces plus the earlier
levels of this face. -/
def faceMipOffset (w h bpp n face mip : Nat) : Nat :=
  face * chainSize w h bpp n + chainSize w h bpp mip

/-- Total byte size of an image with the §3 invariant layout. -/
def totalDataSize (w h bpp n faces : Nat) : Nat := faces * chainSize w h bpp n

/-- Pixel count accumulated by `imageGetNumPixels`. -/
def imageGetNumPixels (img : Image) : Nat :=
  img.m_numFaces * psum (fun m => mipDim img.m_width m * mipDim img.m_height m) img.m_numMips

def bytesPerPixelOf (f : TextureFormat) : Nat := (getImageDataInfo f).m_bytesPerPixel

/-- Shape predicate `imageIsCubemap`: six faces and square. -/
def imageIsCubemap (img : Image) : Prop :=
  img.m_numFaces = 6 ∧ img.m_width = img.m_height

instance (img : Image) : Decidable (imageIsCubemap img) := by
  unfold imageIsCubemap; infer_instance

/-- Shape predicate `imageIsLatLong`: aspect within 1e-5 of 2. -/
def imageIsLatLong (img : Image) : Prop :=
  |((img.m_width : ℚ) / (img.m_height : ℚ)) - 2| < 1 / 100000

instance (img : Image) : Decidable (imageIsLatLong img) := by
  unfold imageIsLatLong; infer_instance

/-- Shape predicate `imageIsHStrip`: width is six times height. -/
def imageIsHStrip (img : Image) : Prop := img.m_width = 6 * img.m_height

instance (img : Image) : Decidable (imageIsHStrip img) := by
  unfold imageIsHStrip; infer_instance

/-! ## Pixel codecs (PixelCodec): conversion to and from the canonical
RGBA32F representation, src/cmft/image.cpp lines 952-1337.

Float values are modelled as exact rationals. Bit-level binary16/binary32
storage is decoded exactly; encoding uses round-to-nearest-even
(`bx::halfToFloat`/`bx::halfFromFloat` are external bx facilities, not in
the repository; per spec §9 they are IEEE binary16 with round-to-nearest-
even, and binary32 store is the identity on representable values). -/

/-- Model of `clamp` from src/cmft/base/utils.h. -/
def clampQ (v lo hi : ℚ) : ℚ := if v > hi then hi else if v < lo then lo else v

/-- C cast `uint8_t(v)` / `uint16_t(v)` / `uint32_t(v)` of a nonnegative
float value: truncation toward zero. -/
def truncNat (v : ℚ) : Nat := (⌊v⌋).toNat

/-- Round to nearest, ties to even. -/
def rne (q : ℚ) : ℤ :=
  let n := ⌊q⌋
  let r := q - n
  if r < 1 / 2 then n else if 1 / 2 < r then n + 1 else if Even n then n else n + 1

/-- Decode an IEEE binary float bit pattern with `mbits` mantissa bits,
`ebits` exponent bits and the given bias into an exact rational. Infinities
and NaNs (maximal exponent field) are decoded by the same formula; they do
not occur in the verified paths. -/
def bitsToQ (mbits ebits : Nat) (bias : ℤ) (bits : Nat) : ℚ :=
  let s := bits / 2 ^ (mbits + ebits) % 2
  let e := bits / 2 ^ mbits % 2 ^ ebits
  let m := bits % 2 ^ mbits
  let mag : ℚ :=
    if e = 0 then (m : ℚ) * (2 : ℚ) ^ (1 - bias - (mbits : ℤ))
    else ((2 ^ mbits + m : Nat) : ℚ) * (2 : ℚ) ^ ((e : ℤ) - bias - (mbits : ℤ))
  if s = 1 then -mag else mag

/-- Encode a rational as an IEEE binary float bit pattern (round to nearest,
ties to even; overflow to infinity). `emin` is the minimal normal exponent
`1 - bias`. -/
def qToBits (mbits ebits : Nat) (bias emin : ℤ) (q : ℚ) : Nat :=
  if q = 0 then 0 else
  let s : Nat := if q < 0 then 1 else 0
  let sb := s * 2 ^ (mbits + ebits)
  let m := |q|
  let e := Int.log 2 m
  if e < emin then
    sb + (rne (m * (2 : ℚ) ^ ((mbits : ℤ) - emin))).toNat
  else
    let n := (rne (m * (2 : ℚ) ^ ((mbits : ℤ) - e))).toNat
    let e2 := if n = 2 ^ (mbits + 1) then e + 1 else e
    let n2 := if n = 2 ^ (mbits + 1) then 2 ^ mbits else n
    if 2 ^ ebits - 1 ≤ e2 + bias then sb + (2 ^ ebits - 1) * 2 ^ mbits
    else sb + (e2 + bias).toNat * 2 ^ mbits + (n2 - 2 ^ mbits)

def halfToQ (bits : Nat) : ℚ := bitsToQ 10 5 15 bits
def qToHalfBits (q : ℚ) : Nat := qToBits 10 5 15 (-14) q
def f32ToQ (bits : Nat) : ℚ := bitsToQ 23 8 127 bits
def qToF32bits (q : ℚ) : Nat := qToBits 23 8 127 (-126) q

/-- Little-endian bytes of a 16-bit value. -/
def u16bytes (n : Nat) : List Nat := [n % 256, n / 256 % 256]

/-- Little-endian bytes of a 32-bit value (also used for file headers). -/
def u32le (n : Nat) : List Nat :=
  [n % 256, n / 256 % 256, n / 256 ^ 2 % 256, n / 256 ^ 3 % 256]

/-- Read a little-endian u16 from two consecutive bytes of a pixel. -/
def u16at (px : Nat → Nat) (j : Nat) : Nat := px j + 256 * px (j + 1)

/-- Read a little-endian binary32 from four consecutive bytes of a pixel. -/
def f32at (px : Nat → Nat) (j : Nat) : ℚ :=
  f32ToQ (px j + 256 * (px (j + 1) + 256 * (px (j + 2) + 256 * px (j + 3))))

/-- Bytes of a binary32 store of a canonical channel value. -/
def f32bytes (q : ℚ) : List Nat := u32le (qToF32bits q)

def halfBytes (q : ℚ) : List Nat := u16bytes (qToHalfBits q)

/-- A canonical RGBA32F pixel. -/
structure Quad where
  r : ℚ
  g : ℚ
  b : ℚ
  a : ℚ

/-- Normalized u8 store: `uint8_t(clamp(v, 0, 1) * 255.0f)` (truncating). -/
def u8FromQ (v : ℚ) : Nat := truncNat (clampQ v 0 1 * 255)

/-- Normalized u16 store: `uint16_t(clamp(v, 0, 1) * 65535.0f)`. -/
def u16FromQ (v : ℚ) : Nat := truncNat (clampQ v 0 1 * 65535)

/-- Model of `rgbeFromRgba32f` (src/cmft/image.cpp lines 1309-1318): shared
exponent `e = ceilf(log2f(max(r,g,b)))` (exactly `Int.clog 2`), channel scale
`255 / 2^e`, channels stored with the truncating `uint8_t` cast, exponent
byte `e + 128`. The code has no special case for a nonpositive maximum; in C
that case hits `log2f` of a nonpositive value and an undefined float-to-int
conversion. -/
def rgbeFromRgba32f (r g b : ℚ) : List Nat :=
  let maxVal := max r (max g b)
  let exp : ℤ := Int.clog 2 maxVal
  let toRgb8 : ℚ := 255 * ((2 : ℚ) ^ (-exp))
  [truncNat (r * toRgb8), truncNat (g * toRgb8), truncNat (b * toRgb8), (exp + 128).toNat]

/-- Model of `rgbeToRgba32f`: channel times `2^(exponentByte - 136)` when the
exponent byte is nonzero, else black; alpha 1. -/
def rgbeToRgba32f (px : Nat → Nat) : Quad :=
  if px 3 ≠ 0 then
    let ex : ℚ := (2 : ℚ) ^ ((px 3 : ℤ) - 136)
    ⟨px 0 * ex, px 1 * ex, px 2 * ex, 1⟩
  else ⟨0, 0, 0, 1⟩

/-- Model of `toRgba32f` (the per-pixel decode dispatch, lines 1051-1068):
`px` gives the bytes of one source pixel. -/
def toRgba32f : TextureFormat → (Nat → Nat) → Quad
  | BGR8, px => ⟨px 2 / 255, px 1 / 255, px 0 / 255, 1⟩
  | RGB8, px => ⟨px 0 / 255, px 1 / 255, px 2 / 255, 1⟩
  | RGB16, px => ⟨u16at px 0 / 65535, u16at px 2 / 65535, u16at px 4 / 65535, 1⟩
  | RGB16F, px => ⟨halfToQ (u16at px 0), halfToQ (u16at px 2), halfToQ (u16at px 4), 1⟩
  | RGB32F, px => ⟨f32at px 0, f32at px 4, f32at px 8, 1⟩
  | RGBE, px => rgbeToRgba32f px
  | BGRA8, px => ⟨px 2 / 255, px 1 / 255, px 0 / 255, px 3 / 255⟩
  | RGBA8, px => ⟨px 0 / 255, px 1 / 255, px 2 / 255, px 3 / 255⟩
  | RGBA16, px => ⟨u16at px 0 / 65535, u16at px 2 / 65535, u16at px 4 / 65535, u16at px 6 / 65535⟩
  | RGBA16F, px => ⟨halfToQ (u16at px 0), halfToQ (u16at px 2), halfToQ (u16at px 4), halfToQ (u16at px 6)⟩
  | RGBA32F, px => ⟨f32at px 0, f32at px 4, f32at px 8, f32at px 12⟩
  | Unknown, _ => ⟨0, 0, 0, 0⟩

/-- Model of `fromRgba32f` (the per-pixel encode dispatch, lines 1320-1337),
as the list of bytes stored for one destination pixel. `rgb16fFromRgba32f`
in the source also stores a fourth half one element past the 3-channel
pixel; that element is outside the pixel (it is overwritten by the next
pixel in the bulk loop), so only the three channel halves appear here. -/
def fromRgba32f : TextureFormat → Quad → List Nat
  | BGR8, q => [u8FromQ q.b, u8FromQ q.g, u8FromQ q.r]
  | RGB8, q => [u8FromQ q.r, u8FromQ q.g, u8FromQ q.b]
  | RGB16, q => u16bytes (u16FromQ q.r) ++ u16bytes (u16FromQ q.g) ++ u16bytes (u16FromQ q.b)
  | RGB16F, q => halfBytes q.r ++ halfBytes q.g ++ halfBytes q.b
  | RGB32F, q => f32bytes q.r ++ f32bytes q.g ++ f32bytes q.b
  | RGBE, q => rgbeFromRgba32f q.r q.g q.b
  | BGRA8, q => [u8FromQ q.b, u8FromQ q.g, u8FromQ q.r, u8FromQ q.a]
  | RGBA8, q => [u8FromQ q.r, u8FromQ q.g, u8FromQ q.b, u8FromQ q.a]
  | RGBA16, q => u16bytes (u16FromQ q.r) ++ u16bytes (u16FromQ q.g) ++
      u16bytes (u16FromQ q.b) ++ u16bytes (u16FromQ q.a)
  | RGBA16F, q => halfBytes q.r ++ halfBytes q.g ++ halfBytes q.b ++ halfBytes q.a
  | RGBA32F, q => f32bytes q.r ++ f32bytes q.g ++ f32bytes q.b ++ f32bytes q.a
  | Unknown, _ => []

/-- Read the canonical pixel stored at byte offset `16 * p` of an RGBA32F
buffer (four binary32 values). -/
def quadAt (data : Nat → Nat) (p : Nat) : Quad :=
  ⟨f32at (fun t => data (16 * p + t)) 0, f32at (fun t => data (16 * p + t)) 4,
   f32at (fun t => data (16 * p + t)) 8, f32at (fun t => data (16 * p + t)) 12⟩

/-- Model of the bulk `imageToRgba32f` (lines 1070-1224): walk source and
destination pixel by pixel; the RGBA32F source case is a plain copy. -/
def imageToRgba32f (src : Image) : Image :=
  let pixelCount := imageGetNumPixels src
  let bpp := bytesPerPixelOf src.m_format
  { m_width := src.m_width, m_height := src.m_height, m_format := RGBA32F,
    m_numMips := src.m_numMips, m_numFaces := src.m_numFaces,
    m_dataSize := pixelCount * 16,
    m_data :=
      if src.m_format = RGBA32F then src.m_data
      else fun i =>
        let p := i / 16
        let q := toRgba32f src.m_format (fun t => src.m_data (p * bpp + t))
        (f32bytes q.r ++ f32bytes q.g ++ f32bytes q.b ++ f32bytes q.a).getD (i % 16) 0 }

/-- Model of the bulk `imageFromRgba32f` (lines 1339-1499); the RGBA32F
destination case is a plain copy. -/
def imageFromRgba32f (dstFormat : TextureFormat) (src : Image) : Image :=
  let pixelCount := imageGetNumPixels src
  let bpp := bytesPerPixelOf dstFormat
  { m_width := src.m_width, m_height := src.m_height, m_format := dstFormat,
    m_numMips := src.m_numMips, m_numFaces := src.m_numFaces,
    m_dataSize := pixelCount * bpp,
    m_data :=
      if dstFormat = RGBA32F then src.m_data
      else fun i => (fromRgba32f dstFormat (quadAt src.m_data (i / bpp))).getD (i % bpp) 0 }

/-- Model of the destination-taking `imageConvert(Image& _dst, _dstFormat,
const Image& _src)` (lines 1508-1538). The destination is unconditionally
replaced, so it does not appear as an argument; `imageRef`, `imageCopy` and
`imageMove` all make the output carry exactly the bytes of the intermediate,
which is the source itself when the source is already RGBA32F. -/
def imageConvert (dstFormat : TextureFormat) (src : Image) : Image :=
  let imageRgba32f := if src.m_format = RGBA32F then src else imageToRgba32f src
  if dstFormat = RGBA32F then imageRgba32f
  else imageFromRgba32f dstFormat imageRgba32f

/-! ## Spec-side definitions used to compare against the code -/

/-- RGBE encoding as the specification words it (§4.1): `let m = max(r,g,b)`;
if `m ≤ 0`, output all zero; else `e = ⌈log2 m⌉`, `scale = 255/2^e`, store
`(round(r·scale), round(g·scale), round(b·scale), e+128)`. -/
def specRgbeEncode (r g b : ℚ) : List Nat :=
  let m := max r (max g b)
  if m ≤ 0 then [0, 0, 0, 0]
  else
    let e := Int.clog 2 m
    let scale : ℚ := 255 * (2 : ℚ) ^ (-e)
    [(round (r * scale)).toNat, (round (g * scale)).toNat,
     (round (b * scale)).toNat, (e + 128).toNat]

/-! ### Claim C7 -/

/-- C7, counterexample: at the canonical pixel `(1/2, 1, 1, 1)` the encoder
stores `127` for the red channel (truncation of `127.5`) whereas the claimed
`round(r·scale)` is `128`; the claim as stated is false on the code. -/
theorem C7_rgbe_round_counterexample :
    rgbeFromRgba32f (mkRat 1 2) 1 1 = [127, 255, 255, 128] ∧
    specRgbeEncode (mkRat 1 2) 1 1 = [128, 255, 255, 128] ∧
    rgbeFromRgba32f (mkRat 1 2) 1 1 ≠ specRgbeEncode (mkRat 1 2) 1 1 :=
  ⟨by decide!, by decide!, by decide!⟩

/-- C7 as amended: for a canonical pixel with nonnegative channels and
positive maximum `m`, the encoder uses the exponent `e = Int.clog 2 m`,
which is exactly the ceiling of `log2 m` (`2^(e-1) < m ≤ 2^e`), and stores
the three channels as the TRUNCATION (not rounding) of `channel · 255/2^e`
plus the exponent byte `e + 128`; each stored channel value is at most 255.
(The `m ≤ 0` case of the spec does not exist in the code: it falls into an
undefined float-to-integer conversion.) -/
theorem C7_rgbe_encode_truncates (r g b : ℚ) (hr : 0 ≤ r) (hg : 0 ≤ g) (hb : 0 ≤ b)
    (hm : 0 < max r (max g b)) :
    (2 : ℚ) ^ (Int.clog 2 (max r (max g b)) - 1) < max r (max g b) ∧
    max r (max g b) ≤ (2 : ℚ) ^ Int.clog 2 (max r (max g b)) ∧
    rgbeFromRgba32f r g b =
      [(⌊r * (255 * (2 : ℚ) ^ (-Int.clog 2 (max r (max g b))))⌋).toNat,
       (⌊g * (255 * (2 : ℚ) ^ (-Int.clog 2 (max r (max g b))))⌋).toNat,
       (⌊b * (255 * (2 : ℚ) ^ (-Int.clog 2 (max r (max g b))))⌋).toNat,
       (Int.clog 2 (max r (max g b)) + 128).toNat] ∧
    (⌊r * (255 * (2 : ℚ) ^ (-Int.clog 2 (max r (max g b))))⌋).toNat ≤ 255 ∧
    (⌊g * (255 * (2 : ℚ) ^ (-Int.clog 2 (max r (max g b))))⌋).toNat ≤ 255 ∧
    (⌊b * (255 * (2 : ℚ) ^ (-Int.clog 2 (max r (max g b))))⌋).toNat ≤ 255 := by
  set m := max r (max g b) with hmdef
  have hb2 : (1 : ℕ) < 2 := by norm_num
  have hupper : m ≤ (2 : ℚ) ^ Int.clog 2 m := by
    simpa using Int.self_le_zpow_clog hb2 m
  have hlower : (2 : ℚ) ^ (Int.clog 2 m - 1) < m := by
    simpa using Int.zpow_pred_clog_lt_self hb2 hm
  have hpow : (0 : ℚ) < (2 : ℚ) ^ (-Int.clog 2 m) := by positivity
  have hbound : ∀ c : ℚ, 0 ≤ c → c ≤ m →
      (⌊c * (255 * (2 : ℚ) ^ (-Int.clog 2 m))⌋).toNat ≤ 255 := by
    intro c hc0 hcm
    have h1 : c * (255 * (2 : ℚ) ^ (-Int.clog 2 m)) ≤ 255 := by
      have h2 : c * (2 : ℚ) ^ (-Int.clog 2 m) ≤ 1 := by
        have h3 : c * (2 : ℚ) ^ (-Int.clog 2 m) ≤
            (2 : ℚ) ^ Int.clog 2 m * (2 : ℚ) ^ (-Int.clog 2 m) :=
          mul_le_mul_of_nonneg_right (le_trans hcm hupper) (le_of_lt hpow)
        rwa [← zpow_add₀ (by norm_num : (2:ℚ) ≠ 0), add_neg_cancel, zpow_zero] at h3
      calc c * (255 * (2 : ℚ) ^ (-Int.clog 2 m))
          = 255 * (c * (2 : ℚ) ^ (-Int.clog 2 m)) := by ring
        _ ≤ 255 * 1 := by
            exact mul_le_mul_of_nonneg_left h2 (by norm_num)
        _ = 255 := by norm_num
    have h4 : (⌊c * (255 * (2 : ℚ) ^ (-Int.clog 2 m))⌋ : ℤ) ≤ 255 := by
      have := Int.floor_le_floor (α := ℚ) h1
      simpa using this
    omega
  refine ⟨hlower, hupper, ?_, hbound r hr (le_max_left _ _),
    hbound g hg (le_trans (le_max_left _ _) (le_max_right _ _)),
    hbound b hb (le_trans (le_max_right _ _) (le_max_right _ _))⟩
  simp only [rgbeFromRgba32f, truncNat, ← hmdef]

/-- C7 witness: the amended statement instantiated at the concrete pixel
`(1/2, 1, 1, 1)`, hypotheses discharged there. -/
theorem C7_rgbe_encode_truncates_witness :
    (0 : ℚ) ≤ mkRat 1 2 ∧ (0 : ℚ) < max (mkRat 1 2) (max 1 1) ∧
    rgbeFromRgba32f (mkRat 1 2) 1 1 =
      [(⌊(mkRat 1 2) * (255 * (2 : ℚ) ^ (-Int.clog 2 (max (mkRat 1 2) (max 1 1))))⌋).toNat,
       (⌊(1 : ℚ) * (255 * (2 : ℚ) ^ (-Int.clog 2 (max (mkRat 1 2) (max 1 1))))⌋).toNat,
       (⌊(1 : ℚ) * (255 * (2 : ℚ) ^ (-Int.clog 2 (max (mkRat 1 2) (max 1 1))))⌋).toNat,
       (Int.clog 2 (max (mkRat 1 2) (max 1 1)) + 128).toNat] :=
  ⟨by decide!, by decide!,
   (C7_rgbe_encode_truncates (mkRat 1 2) 1 1 (by decide!) (by decide!) (by decide!)
     (by decide!)).2.2.1⟩

/-! ### Claim C6 -/

/-- Concrete 1×1 RGBE image with the single pixel `(1, 0, 0, 128)`,
that is the value `(2^-8, 0, 0)`. -/
def rgbe1x1 : Image :=
  ⟨1, 1, RGBE, 1, 1, 4, fun i => [1, 0, 0, 128].getD i 0⟩

/-- C6, counterexample: converting the RGBE image `rgbe1x1` to its own
format with the destination-taking `imageConvert` is NOT a bit-exact copy:
the stored pixel becomes `(255, 0, 0, 120)` (the value is re-normalised by
the canonical round trip), byte 0 changes from 1 to 255. -/
theorem C6_convert_rgbe_counterexample :
    ¬ Image.Eqv (imageConvert RGBE rgbe1x1) rgbe1x1 := by
  intro h
  have h0 : (imageConvert RGBE rgbe1x1).m_data 0 = rgbe1x1.m_data 0 :=
    h.2.2.2.2.2.2 0 (by decide!)
  have h1 : (imageConvert RGBE rgbe1x1).m_data 0 = 255 := by decide!
  have h2 : rgbe1x1.m_data 0 = 1 := by decide!
  rw [h1, h2] at h0
  exact absurd h0 (by decide)

/-- C6 as amended: when the requested format equals the format of the
source, the destination-taking `imageConvert` still routes through the
canonical intermediate: the result is a bit-exact copy when that format is
RGBA32F, and otherwise it is exactly
`imageFromRgba32f fmt (imageToRgba32f src)` — the canonical round trip of
the source, which need not be byte-identical (RGBE is a counterexample). -/
theorem C6_convert_same_format (src : Image) (fmt : TextureFormat)
    (hfmt : fmt = src.m_format) :
    (fmt = RGBA32F → imageConvert fmt src = src) ∧
    (fmt ≠ RGBA32F → imageConvert fmt src = imageFromRgba32f fmt (imageToRgba32f src)) := by
  subst hfmt
  constructor
  · intro h
    simp [imageConvert, h]
  · intro h
    simp [imageConvert, h]

/-- C6 witness: the amended statement instantiated at the RGBE image. -/
theorem C6_convert_same_format_witness :
    (RGBE = rgbe1x1.m_format) ∧
    ((RGBE = RGBA32F → imageConvert RGBE rgbe1x1 = rgbe1x1) ∧
     (RGBE ≠ RGBA32F →
       imageConvert RGBE rgbe1x1 = imageFromRgba32f RGBE (imageToRgba32f rgbe1x1))) :=
  ⟨rfl, C6_convert_same_format rgbe1x1 RGBE rfl⟩

/-! ## Canonical-space image operations (ImageOps)

`imageResize` and `imageGenerateMipMapChain` perform all arithmetic on an
RGBA32F working copy (`imageRefOrConvert` at entry, conversion back at
exit). They are modelled here on canonical images directly: `FImage` is the
RGBA32F buffer viewed as rational channel values, four channels per pixel,
and all byte offsets of the source (which are uniform multiples of
`bytesPerPixel = 16`) appear divided by 4 as channel offsets (`bpp = 4`
channel units per pixel). For an RGBA32F source the entry and exit
conversions of the code are straight moves. -/

structure FImage where
  m_width : Nat
  m_height : Nat
  m_numMips : Nat
  m_numFaces : Nat
  m_dataSize : Nat
  m_data : Nat → ℚ

/-- Helper for `forFold_hit` when the steps after the hit each write only at
indices at or above their own block start `off + k * P`. -/
theorem forFold_grid_hit {γ : Type _} (N P off : Nat) (body : Nat → (Nat → γ) → (Nat → γ))
    (a : Nat → γ) (i k0 : Nat) (v : γ) (hk : k0 < N)
    (hlow : ∀ k, k0 < k → k < N → ∀ buf : Nat → γ, ∀ j, j < off + k * P → body k buf j = buf j)
    (hval : ∀ buf : Nat → γ, body k0 buf i = v)
    (hi : i < off + k0 * P + P) :
    forFold N body a i = v := by
  refine forFold_hit N body a i k0 v hk hval ?_
  intro k hk1 hk2 gbuf
  refine hlow k hk1 hk2 gbuf i ?_
  have h1 : (k0 + 1) * P ≤ k * P := Nat.mul_le_mul_right P hk1
  have h2 : off + k0 * P + P = off + (k0 + 1) * P := by ring
  omega

/-- Model of `imageResize` (src/cmft/image.cpp lines 1611-1704) on a
canonical image. `g` is the arbitrary initial contents of the `malloc`
buffer. For each destination pixel the matching source rectangle is
averaged over the RGB channels; alpha is set to 1; the result has a single
mip level. -/
def imageResize (g : Nat → ℚ) (w h : Nat) (src : FImage) : FImage :=
  let bpp := 4
  let dstPitch := w * bpp
  let dstFaceDataSize := dstPitch * h
  let dstDataSize := dstFaceDataSize * src.m_numFaces
  let srcPitch := src.m_width * bpp
  let ratioX : ℚ := (src.m_width : ℚ) / (w : ℚ)
  let ratioY : ℚ := (src.m_height : ℚ) / (h : ℚ)
  let data := forFold src.m_numFaces (fun face buf =>
    let srcFaceOff := face * chainSize src.m_width src.m_height bpp src.m_numMips
    forFold h (fun yDst buf2 =>
      forFold w (fun xDst buf3 =>
        let ySrc := Nat.floor ((yDst : ℚ) * ratioY)
        let yCnt := max 1 (Nat.floor ratioY)
        let xSrc := Nat.floor ((xDst : ℚ) * ratioX)
        let xCnt := max 1 (Nat.floor ratioX)
        let color : Nat → ℚ := fun c =>
          forFold yCnt (fun dy acc =>
            forFold xCnt (fun dx acc2 =>
              acc2 + src.m_data (srcFaceOff + (ySrc + dy) * srcPitch + (xSrc + dx) * bpp + c))
              acc) 0
        let weight := yCnt * xCnt
        let invWeight : ℚ := 1 / ((max weight 1 : Nat) : ℚ)
        writeRange buf3 (face * dstFaceDataSize + yDst * dstPitch + xDst * bpp) bpp
          (fun c => if c < 3 then color c * invWeight else 1)) buf2) buf) g
  { m_width := w, m_height := h, m_numMips := 1, m_numFaces := src.m_numFaces,
    m_dataSize := dstDataSize, m_data := data }

/-! ### Claim C10 -/

/-- C10: upscaling (`new_w ≥ width`, `new_h ≥ height`) degenerates to
nearest-neighbour point sampling: the source rectangle of destination pixel
`(x, y)` collapses to the single source pixel
`(⌊x·width/new_w⌋, ⌊y·height/new_h⌋)`, whose RGB is copied exactly, with
alpha forced to 1. -/
theorem C10_resize_upscale_point_samples (g : Nat → ℚ) (src : FImage) (w h : Nat)
    (hw : src.m_width ≤ w) (hh : src.m_height ≤ h)
    (face x y c : Nat) (hface : face < src.m_numFaces) (hx : x < w) (hy : y < h)
    (hc : c < 4) :
    (imageResize g w h src).m_data (face * (w * 4 * h) + y * (w * 4) + x * 4 + c) =
      if c < 3 then
        src.m_data (face * chainSize src.m_width src.m_height 4 src.m_numMips +
          Nat.floor ((y : ℚ) * ((src.m_height : ℚ) / (h : ℚ))) * (src.m_width * 4) +
          Nat.floor ((x : ℚ) * ((src.m_width : ℚ) / (w : ℚ))) * 4 + c)
      else 1 := by
  have hw0 : 0 < w := Nat.lt_of_le_of_lt (Nat.zero_le x) hx
  have hh0 : 0 < h := Nat.lt_of_le_of_lt (Nat.zero_le y) hy
  have hratX : Nat.floor ((src.m_width : ℚ) / (w : ℚ)) ≤ 1 := by
    have : ((src.m_width : ℚ) / (w : ℚ)) ≤ 1 := by
      rw [div_le_one (by exact_mod_cast hw0)]
      exact_mod_cast hw
    calc Nat.floor ((src.m_width : ℚ) / (w : ℚ)) ≤ Nat.floor (1 : ℚ) :=
          Nat.floor_le_floor this
      _ = 1 := by simp
  have hratY : Nat.floor ((src.m_height : ℚ) / (h : ℚ)) ≤ 1 := by
    have : ((src.m_height : ℚ) / (h : ℚ)) ≤ 1 := by
      rw [div_le_one (by exact_mod_cast hh0)]
      exact_mod_cast hh
    calc Nat.floor ((src.m_height : ℚ) / (h : ℚ)) ≤ Nat.floor (1 : ℚ) :=
          Nat.floor_le_floor this
      _ = 1 := by simp
  have hcntX : max 1 (Nat.floor ((src.m_width : ℚ) / (w : ℚ))) = 1 := by omega
  have hcntY : max 1 (Nat.floor ((src.m_height : ℚ) / (h : ℚ))) = 1 := by omega
  show forFold src.m_numFaces _ g _ = _
  -- the face-level hit
  have hyP : y * (w * 4) + x * 4 + c < h * (w * 4) := by
    have h1 : (y + 1) * (w * 4) ≤ h * (w * 4) := Nat.mul_le_mul_right _ hy
    have h2 : x * 4 + c < w * 4 := by
      have : (x + 1) * 4 ≤ w * 4 := Nat.mul_le_mul_right _ hx
      omega
    have h3 : y * (w * 4) + (w * 4) = (y + 1) * (w * 4) := by ring
    omega
  refine forFold_grid_hit src.m_numFaces (w * 4 * h) 0 _ g _ face _ hface ?_ ?_ ?_
  · -- later faces write only at or above their face block
    intro k hk1 hk2 buf j hj
    refine forFold_out h _ buf j ?_
    intro yy hyy buf2
    refine forFold_out w _ buf2 j ?_
    intro xx hxx buf3
    refine writeRange_out _ _ _ _ j ?_
    rintro ⟨hl, _⟩
    have : 0 + k * (w * 4 * h) ≤ k * (w * 4 * h) + yy * (w * 4) + xx * 4 := by omega
    have hj2 : j < k * (w * 4 * h) := by omega
    omega
  · -- the face: row-level hit inside it
    intro buf
    refine forFold_grid_hit h (w * 4) (face * (w * 4 * h)) _ buf _ y _ hy ?_ ?_ ?_
    · -- later rows
      intro k hk1 hk2 buf2 j hj
      refine forFold_out w _ buf2 j ?_
      intro xx hxx buf3
      refine writeRange_out _ _ _ _ j ?_
      rintro ⟨hl, _⟩
      omega
    · -- the row: column-level hit inside it
      intro buf2
      refine forFold_grid_hit w 4 (face * (w * 4 * h) + y * (w * 4)) _ buf2 _ x _ hx ?_ ?_ ?_
      · intro k hk1 hk2 buf3 j hj
        refine writeRange_out _ _ _ _ j ?_
        rintro ⟨hl, _⟩
        omega
      · -- the write itself
        intro buf3
        rw [writeRange_in _ _ _ _ _ (by omega) (by omega)]
        have hsub : face * (w * 4 * h) + y * (w * 4) + x * 4 + c -
            (face * (w * 4 * h) + y * (w * 4) + x * 4) = c := by omega
        rw [hsub, hcntX, hcntY]
        simp [forFold]
      · omega
    · omega
  · have : face * (w * 4 * h) + (w * 4 * h) = (face + 1) * (w * 4 * h) := by ring
    have h4 : y * (w * 4) + x * 4 + c < w * 4 * h := by
      have := hyP
      have h5 : h * (w * 4) = w * 4 * h := by ring
      omega
    omega

/-- C10 witness: a 1×1 single-face canonical image upscaled to 2×2; the
destination pixel (1, 1) copies source pixel (0, 0) and forces alpha 1. -/
theorem C10_resize_upscale_point_samples_witness :
    (1 : Nat) ≤ 2 ∧
    (imageResize (fun _ => 0) 2 2 ⟨1, 1, 1, 1, 4, fun i => [mkRat 1 3, mkRat 2 3, mkRat 1 7, mkRat 1 2].getD i 0⟩).m_data
        (0 * (2 * 4 * 2) + 1 * (2 * 4) + 1 * 4 + 0) =
      if (0 : Nat) < 3 then
        (fun i => [mkRat 1 3, mkRat 2 3, mkRat 1 7, mkRat 1 2].getD i 0)
          (0 * chainSize 1 1 4 1 + Nat.floor ((1 : ℚ) * ((1 : ℚ) / (2 : ℚ))) * (1 * 4) +
           Nat.floor ((1 : ℚ) * ((1 : ℚ) / (2 : ℚ))) * 4 + 0)
      else 1 :=
  ⟨by decide,
   C10_resize_upscale_point_samples (fun _ => 0)
     ⟨1, 1, 1, 1, 4, fun i => [mkRat 1 3, mkRat 2 3, mkRat 1 7, mkRat 1 2].getD i 0⟩ 2 2
     (by decide) (by decide) 0 1 1 0 (by decide) (by decide) (by decide) (by decide)⟩

/-! ### Mip chain generation (`imageGenerateMipMapChain`, lines 1891-2013) -/

/-- Destination mip count loop of `imageGenerateMipMapChain`: starting from
`mipCount = 0` with stale dimensions 0, continue while
`mipCount < maxMipNum && width != 1 && height != 1`, where `width`/`height`
are the dimensions computed in the PREVIOUS iteration. `remaining` is
`maxMipNum - k`. -/
def genMipCountAux (w h : Nat) : Nat → Nat → Nat → Nat → Nat
  | 0, k, _, _ => k
  | r + 1, k, curW, curH =>
      if curW ≠ 1 ∧ curH ≠ 1 then genMipCountAux w h r (k + 1) (mipDim w k) (mipDim h k)
      else k

def genMipCount (w h maxMipNum : Nat) : Nat := genMipCountAux w h maxMipNum 0 0 0

/-- Model of `imageGenerateMipMapChain` on a canonical image (channel units
as for `imageResize`). Present source mips are copied; missing mips are a
2×2 box filter of the coarser level already written into the destination. -/
def imageGenerateMipMapChain (g : Nat → ℚ) (img : FImage) (numMips : Nat) : FImage :=
  let maxMipNum := min numMips MAX_MIP_NUM
  let mipCount := genMipCount img.m_width img.m_height maxMipNum
  let bpp := 4
  let dstDataSize := img.m_numFaces * chainSize img.m_width img.m_height bpp mipCount
  let data := forFold img.m_numFaces (fun face buf =>
    forFold mipCount (fun mip buf2 =>
      let width := mipDim img.m_width mip
      let height := mipDim img.m_height mip
      let pitch := width * bpp
      let dstOff := faceMipOffset img.m_width img.m_height bpp mipCount face mip
      if mip < img.m_numMips then
        let srcOff := faceMipOffset img.m_width img.m_height bpp img.m_numMips face mip
        forFold height (fun yy buf3 =>
          writeRange buf3 (dstOff + yy * pitch) pitch
            (fun t => img.m_data (srcOff + yy * pitch + t))) buf2
      else
        let parentMip := mip - 1
        let parentWidth := mipDim img.m_width parentMip
        let parentPitch := parentWidth * bpp
        let parentOff := faceMipOffset img.m_width img.m_height bpp mipCount face parentMip
        forFold height (fun yy buf3 =>
          forFold width (fun xx buf4 =>
            let color : Nat → ℚ := fun c =>
              forFold 2 (fun dy acc =>
                forFold 2 (fun dx acc2 =>
                  acc2 + buf4 (parentOff + (yy * 2 + dy) * parentPitch + (xx * 2 + dx) * bpp + c))
                  acc) 0
            writeRange buf4 (dstOff + yy * pitch + xx * bpp) bpp
              (fun c => color c * (1 / 4))) buf3) buf2) buf) g
  { m_width := img.m_width, m_height := img.m_height, m_numMips := mipCount,
    m_numFaces := img.m_numFaces, m_dataSize := dstDataSize, m_data := data }

/-- Spec-side natural mip count (§4.3): the number of power-of-two halvings
of W×H until reaching 1×1, inclusive of the base level; a dimension `d ≥ 1`
reaches 1 after `⌊log2 d⌋` halvings, so the slower dimension governs. -/
def specNaturalMipCount (w h : Nat) : Nat := 1 + Nat.log 2 (max w h)

theorem mipDim_eq_one_iff {d m : Nat} (hd : 1 ≤ d) :
    mipDim d m = 1 ↔ Nat.log 2 d ≤ m := by
  unfold mipDim
  rw [Nat.shiftRight_eq_div_pow]
  constructor
  · intro h
    have hle : d / 2 ^ m ≤ 1 := by omega
    have hlt : d / 2 ^ m < 2 := by omega
    have : d < 2 * 2 ^ m := (Nat.div_lt_iff_lt_mul (Nat.pos_pow_of_pos m (by norm_num))).mp hlt
    have hdd : d < 2 ^ (m + 1) := by
      rw [pow_succ]; omega
    have := (Nat.lt_pow_iff_log_lt (by norm_num) (by omega)).mp hdd
    omega
  · intro h
    have hdd : d < 2 ^ (m + 1) := (Nat.lt_pow_iff_log_lt (by norm_num) (by omega)).mpr (by omega)
    have : d / 2 ^ m < 2 := by
      rw [Nat.div_lt_iff_lt_mul (Nat.pos_pow_of_pos m (by norm_num))]
      rw [pow_succ] at hdd
      omega
    omega

theorem natLog_min (w h : Nat) : Nat.log 2 (min w h) = min (Nat.log 2 w) (Nat.log 2 h) := by
  rcases Nat.le_total w h with hle | hle
  · rw [min_eq_left hle, min_eq_left (Nat.log_mono_right hle)]
  · rw [min_eq_right hle, min_eq_right (Nat.log_mono_right hle)]

theorem genMipCountAux_spec (w h : Nat) (hw : 1 ≤ w) (hh : 1 ≤ h) :
    ∀ r k, 1 ≤ k → k ≤ Nat.log 2 (min w h) + 1 →
      genMipCountAux w h r k (mipDim w (k - 1)) (mipDim h (k - 1)) =
        min (k + r) (Nat.log 2 (min w h) + 1) := by
  intro r
  induction r with
  | zero =>
      intro k hk1 hk2
      simp only [genMipCountAux]
      omega
  | succ r ih =>
      intro k hk1 hk2
      simp only [genMipCountAux]
      have hiff : (mipDim w (k - 1) ≠ 1 ∧ mipDim h (k - 1) ≠ 1) ↔
          k ≤ Nat.log 2 (min w h) := by
        rw [ne_eq, mipDim_eq_one_iff hw, ne_eq, mipDim_eq_one_iff hh, natLog_min]
        omega
      by_cases hcond : mipDim w (k - 1) ≠ 1 ∧ mipDim h (k - 1) ≠ 1
      · rw [if_pos hcond]
        have hk3 : k ≤ Nat.log 2 (min w h) := hiff.mp hcond
        have := ih (k + 1) (by omega) (by omega)
        simpa [Nat.add_sub_cancel] using by
          rw [show k + 1 - 1 = k by omega] at this
          rw [this]
          omega
      · rw [if_neg hcond]
        have hk3 : ¬ k ≤ Nat.log 2 (min w h) := fun h2 => hcond (hiff.mpr h2)
        omega

theorem genMipCount_spec (w h maxMipNum : Nat) (hw : 1 ≤ w) (hh : 1 ≤ h) :
    genMipCount w h maxMipNum = min maxMipNum (Nat.log 2 (min w h) + 1) := by
  cases maxMipNum with
  | zero => simp [genMipCount, genMipCountAux]
  | succ r =>
      show genMipCountAux w h (r + 1) 0 0 0 = _
      simp only [genMipCountAux]
      rw [if_pos (by omega)]
      have := genMipCountAux_spec w h hw hh r 1 (by omega) (by omega)
      simp only [Nat.sub_self] at this
      rw [this]
      omega

/-! ### Claim C5 -/

/-- C5, counterexample: for the 8×2 single-face canonical image and a
requested count of 16, the claimed mip count
`min(16, MAX_MIP, natural_mip_count)` is 4 (8×2 → 4×1 → 2×1 → 1×1), but the
code produces 2: its loop stops as soon as EITHER dimension reaches 1. -/
theorem C5_mip_count_counterexample :
    (imageGenerateMipMapChain (fun _ => 0) ⟨8, 2, 1, 1, 64, fun _ => 0⟩ 16).m_numMips = 2 ∧
    min (min 16 MAX_MIP_NUM) (specNaturalMipCount 8 2) = 4 ∧ (2 : Nat) ≠ 4 :=
  ⟨by decide!, by decide!, by decide⟩

/-- C5 as amended: the destination mip count is
`min(desired, MAX_MIP, 1 + ⌊log2(min(W, H))⌋)`: the chain stops one level
after the SMALLER dimension reaches 1 (clamped), not at 1×1. -/
theorem C5_mip_count (g : Nat → ℚ) (img : FImage) (d : Nat)
    (hw : 1 ≤ img.m_width) (hh : 1 ≤ img.m_height) :
    (imageGenerateMipMapChain g img d).m_numMips =
      min (min d MAX_MIP_NUM) (1 + Nat.log 2 (min img.m_width img.m_height)) := by
  show genMipCount img.m_width img.m_height (min d MAX_MIP_NUM) = _
  rw [genMipCount_spec _ _ _ hw hh]
  omega

/-- C5 witness: the amended count at the 8×2 image with 16 requested mips. -/
theorem C5_mip_count_witness :
    (1 : Nat) ≤ 8 ∧
    (imageGenerateMipMapChain (fun _ => 0) ⟨8, 2, 1, 1, 64, fun _ => 0⟩ 16).m_numMips =
      min (min 16 MAX_MIP_NUM) (1 + Nat.log 2 (min 8 2)) :=
  ⟨by decide,
   C5_mip_count (fun _ => 0) ⟨8, 2, 1, 1, 64, fun _ => 0⟩ 16 (by decide) (by decide)⟩

/-! ### Claim C1: `imageGetPixel` (lines 1565-1609) -/

/-- Model of `imageGetPixel`. The face/mip offset is computed by the nested
loop of the source: `for (face < _face) for (mip < _mip) offset += ...`,
and the row pitch uses the BASE width. The pixel is copied when the formats
agree, decoded from canonical when the image is RGBA32F, and otherwise
routed through the canonical intermediate. -/
def imageGetPixel (fmt : TextureFormat) (x y mip face : Nat) (img : Image) : List Nat :=
  let bpp := bytesPerPixelOf img.m_format
  let pitch := img.m_width * bpp
  let offset := forFold face (fun _ acc =>
    forFold mip (fun m acc2 => acc2 + levelSize img.m_width img.m_height bpp m) acc) 0
  let src : Nat → Nat := fun j => img.m_data (offset + y * pitch + x * bpp + j)
  if img.m_format = fmt then (List.range bpp).map src
  else if img.m_format = RGBA32F then
    fromRgba32f fmt ⟨f32at src 0, f32at src 4, f32at src 8, f32at src 12⟩
  else fromRgba32f fmt (toRgba32f img.m_format src)

/-- Byte offset of the requested pixel as claim C1 (and §3 of the spec)
states it: all full mip chains of the faces before `face`, the levels
before `mip` of this face, then the row and column at the width of mip
`mip`. This matches `imageGetMipOffsets`, used everywhere else in the
code. -/
def specGetPixelOffset (img : Image) (x y mip face : Nat) : Nat :=
  faceMipOffset img.m_width img.m_height (bytesPerPixelOf img.m_format) img.m_numMips face mip +
    y * (mipDim img.m_width mip * bytesPerPixelOf img.m_format) +
    x * bytesPerPixelOf img.m_format

/-- Concrete 1×1 RGB8 cube map (6 faces, 1 mip): face `k` holds the pixel
bytes `(3k, 3k+1, 3k+2)`. -/
def cube1x1 : Image := ⟨1, 1, RGB8, 1, 6, 18, fun i => i⟩

/-- C1: `imageGetPixel` reads from the wrong offset. At the in-range request
(x = 0, y = 0, mip = 0, face = 1) on `cube1x1` it returns the face-0 pixel
`(0, 1, 2)` — its offset loop `for (face < _face) for (mip < _mip)` adds
nothing when `mip = 0` — while the §3 layout locates the face-1 pixel
`(3, 4, 5)` at offset 3. `imageGetMipOffsets`, which the rest of the code
uses for the same layout, confirms the claimed offset. -/
theorem C1_getPixel_wrong_offset :
    imageGetPixel RGB8 0 0 0 1 cube1x1 = [0, 1, 2] ∧
    specGetPixelOffset cube1x1 0 0 0 1 = 3 ∧
    (List.range 3).map (fun j => cube1x1.m_data (specGetPixelOffset cube1x1 0 0 0 1 + j)) =
      [3, 4, 5] ∧
    imageGetPixel RGB8 0 0 0 1 cube1x1 ≠
      (List.range 3).map (fun j => cube1x1.m_data (specGetPixelOffset cube1x1 0 0 0 1 + j)) :=
  ⟨by decide!, by decide!, by decide!, by decide!⟩

/-! ### Per-face flips (`imageTransformUseMacroInstead`, lines 1713-1889)

Modelled from the source for an op word whose rotation bits are clear: the
call sites embedded here pass `IMAGE_OP_FLIP_X`, `IMAGE_OP_FLIP_Y` or their
union (the `IMAGE_OP_*` bit constants live in cmft/image.h, which is not
part of the staged sources; the rotation blocks they would select are
guarded off for these op words). FLIP_X (reverse row order) runs before
FLIP_Y (reverse pixels within each row), as in the source. -/
def imageTransformFlips (flipX flipY : Bool) (face : Nat) (img : Image) : Image :=
  let bpp := bytesPerPixelOf img.m_format
  let data1 :=
    if flipX then
      forFold img.m_numMips (fun mip buf =>
        let height := mipDim img.m_height mip
        let pitch := mipDim img.m_width mip * bpp
        let facePtr := faceMipOffset img.m_width img.m_height bpp img.m_numMips face mip
        forFold (height / 2) (fun yy buf2 =>
          cmft_swapF buf2 (facePtr + pitch * yy) (facePtr + pitch * (height - 1 - yy)) pitch)
          buf) img.m_data
    else img.m_data
  let data2 :=
    if flipY then
      forFold img.m_numMips (fun mip buf =>
        let width := mipDim img.m_width mip
        let height := mipDim img.m_height mip
        let pitch := width * bpp
        let facePtr := faceMipOffset img.m_width img.m_height bpp img.m_numMips face mip
        forFold height (fun yy buf2 =>
          forFold (width / 2) (fun xx buf3 =>
            cmft_swapF buf3 (facePtr + pitch * yy + bpp * xx)
              (facePtr + pitch * yy + bpp * (width - 1 - xx)) bpp) buf2) buf) data1
    else data1
  { img with m_data := data2 }

/-! ### Claim C2: `imageCubemapFromCross` (lines 2298-2399) -/

/-- Model of `imageCubemapFromCross`. The aspect tests are transcribed as
written in the source: BOTH `isVertical` and `isHorizontal` compare
`aspect - 3.0f/4.0f < 0.0001f` (line 2303 repeats the vertical test), so
the horizontal-cross offsets of the else branch are unreachable. `g` is the
arbitrary initial contents of the `malloc` buffer. -/
def imageCubemapFromCross (g : Nat → Nat) (dst src : Image) : Bool × Image :=
  let aspect : ℚ := (src.m_width : ℚ) / (src.m_height : ℚ)
  let isVertical : Prop := aspect - 3 / 4 < 1 / 10000
  let isHorizontal : Prop := aspect - 3 / 4 < 1 / 10000
  if ¬ isVertical ∧ ¬ isHorizontal then (false, dst)
  else
    let srcBpp := bytesPerPixelOf src.m_format
    let imagePitch := src.m_width * srcBpp
    let faceSize := if isVertical then (src.m_width + 2) / 3 else (src.m_width + 3) / 4
    let facePitch := faceSize * srcBpp
    let faceDataSize := facePitch * faceSize
    let rowDataSize := imagePitch * faceSize
    let dstDataSize := faceDataSize * CUBE_FACE_NUM
    let faceOffsets : Nat → Nat := fun f =>
      if isVertical then
        [rowDataSize + 2 * facePitch, rowDataSize, facePitch, 2 * rowDataSize + facePitch,
         rowDataSize + facePitch, 3 * rowDataSize + facePitch].getD f 0
      else
        [rowDataSize + 2 * facePitch, rowDataSize, facePitch, 2 * rowDataSize + facePitch,
         rowDataSize + facePitch, rowDataSize + 3 * facePitch].getD f 0
    let data := forFold 6 (fun face buf =>
      forFold faceSize (fun yy buf2 =>
        writeRange buf2 (faceDataSize * face + facePitch * yy) facePitch
          (fun t => src.m_data (faceOffsets face + imagePitch * yy + t))) buf) g
    let result : Image := ⟨faceSize, faceSize, src.m_format, 1, 6, dstDataSize, data⟩
    let result2 := if isVertical then imageTransformFlips true true 5 result else result
    (true, result2)

/-- Concrete 4×3 RGB8 single-face image: a horizontal cross candidate with
aspect exactly 4:3. -/
def imgCross43 : Image := ⟨4, 3, RGB8, 1, 1, 36, fun i => i⟩

def imgNull : Image := ⟨0, 0, Unknown, 0, 0, 0, fun _ => 0⟩

/-- C2: the claim says a 4:3 single-face source succeeds with face size
`ceil(W/4)`; the code rejects it. Line 2303 tests
`aspect - 3.0f/4.0f < 0.0001f` for `isHorizontal` — a copy-paste of the
vertical test (compare `imageIsCubeCross`, line 2138, which tests
`aspect - 4.0f/3.0f`) — so for aspect 4/3 both flags are false and the
function returns false, leaving the destination untouched. -/
theorem C2_cross_horizontal_rejected :
    (imgCross43.m_width : ℚ) / (imgCross43.m_height : ℚ) = 4 / 3 ∧
    imageCubemapFromCross (fun _ => 0) imgNull imgCross43 = (false, imgNull) := by
  constructor
  · show ((4 : Nat) : ℚ) / ((3 : Nat) : ℚ) = 4 / 3
    norm_num
  · show (if ¬ ((4 : ℚ) / 3 - 3 / 4 < 1 / 10000) ∧ ¬ ((4 : ℚ) / 3 - 3 / 4 < 1 / 10000)
        then (false, imgNull) else _) = (false, imgNull)
    rw [if_pos]
    constructor <;> norm_num

/-! ### Claim C8: horizontal strip remaps (lines 2721-2881) -/

/-- Buffer contents written by `imageHStripFromCubemap` (lines 2750-2775):
for each face, each mip, each row, copy the cube row into the strip at
column `face`. `W H` are the cube dimensions, `n` its mip count; the strip
is `(W*6) × W` and its mip offsets accumulate over `(W*6, W)` levels. -/
def hstripData (W H B n : Nat) (srcData g : Nat → Nat) : Nat → Nat :=
  forFold 6 (fun face buf =>
    forFold n (fun mip buf2 =>
      let srcOff := faceMipOffset W H B n face mip
      let dstMipOff := chainSize (W * 6) W B mip
      let p := mipDim W mip * B
      forFold (mipDim W mip) (fun yy buf3 =>
        writeRange buf3 (dstMipOff + p * face + yy * (p * 6)) p
          (fun t => srcData (srcOff + yy * p + t))) buf2) buf) g

/-- Model of `imageHStripFromCubemap`. -/
def imageHStripFromCubemap (g : Nat → Nat) (dst src : Image) : Bool × Image :=
  if ¬ imageIsCubemap src then (false, dst)
  else
    let bpp := bytesPerPixelOf src.m_format
    (true, ⟨src.m_width * 6, src.m_width, src.m_format, src.m_numMips, 1,
      chainSize (src.m_width * 6) src.m_width bpp src.m_numMips,
      hstripData src.m_width src.m_height bpp src.m_numMips src.m_data g⟩)

/-- Buffer contents written by `imageCubemapFromHStrip` (lines 2831-2856):
`W H` are the strip dimensions, the cube face size is `H`. -/
def cubeFromHStripData (W H B n : Nat) (srcData g : Nat → Nat) : Nat → Nat :=
  forFold 6 (fun face buf =>
    forFold n (fun mip buf2 =>
      let dstOff := faceMipOffset H H B n face mip
      let srcMipOff := chainSize W H B mip
      let p := mipDim H mip * B
      forFold (mipDim H mip) (fun yy buf3 =>
        writeRange buf3 (dstOff + yy * p) p
          (fun t => srcData (srcMipOff + p * face + yy * (p * 6) + t))) buf2) buf) g

/-- Model of `imageCubemapFromHStrip`. -/
def imageCubemapFromHStrip (g : Nat → Nat) (dst src : Image) : Bool × Image :=
  if ¬ imageIsHStrip src then (false, dst)
  else
    let bpp := bytesPerPixelOf src.m_format
    (true, ⟨src.m_height, src.m_height, src.m_format, src.m_numMips, 6,
      6 * chainSize src.m_height src.m_height bpp src.m_numMips,
      cubeFromHStripData src.m_width src.m_height bpp src.m_numMips src.m_data g⟩)

theorem chainSize_succ (w h b m : Nat) :
    chainSize w h b (m + 1) = chainSize w h b m + levelSize w h b m := rfl

theorem chainSize_mono (w h b : Nat) {m1 m2 : Nat} (h12 : m1 ≤ m2) :
    chainSize w h b m1 ≤ chainSize w h b m2 := psum_mono _ h12

/-- Write-block disjointness helper: a write of length `p` at block `k2`
misses index `base + p * k1 + t` when `k1 ≠ k2` and `t < p`. -/
theorem writeRange_miss_block {γ : Type _} (buf : Nat → γ) (base p k1 k2 t : Nat)
    (src : Nat → γ) (hne : k1 ≠ k2) (ht : t < p) :
    writeRange buf (base + p * k2) p src (base + p * k1 + t) = buf (base + p * k1 + t) := by
  refine writeRange_out _ _ _ _ _ ?_
  rcases Nat.lt_or_ge k1 k2 with h | h
  · have h4 : p * (k1 + 1) ≤ p * k2 := Nat.mul_le_mul_left p h
    have h5 : p * (k1 + 1) = p * k1 + p := by ring
    rintro ⟨h1, _⟩
    omega
  · have hk : k2 < k1 := Nat.lt_of_le_of_ne h (Ne.symm hne)
    have h4 : p * (k2 + 1) ≤ p * k1 := Nat.mul_le_mul_left p hk
    have h5 : p * (k2 + 1) = p * k2 + p := by ring
    rintro ⟨_, h2⟩
    omega

/-- Index decomposition for the face-major mip-minor cube layout: every
index below the total size lies in exactly one face, mip and row. -/
theorem cube_index_decomp (S B n i : Nat) (hi : i < 6 * chainSize S S B n) :
    ∃ f m y t, f < 6 ∧ m < n ∧ y < mipDim S m ∧ t < mipDim S m * B ∧
      i = faceMipOffset S S B n f m + y * (mipDim S m * B) + t := by
  have hchain : 0 < chainSize S S B n := by
    by_contra h
    omega
  have hf : i / chainSize S S B n < 6 := Nat.div_lt_of_lt_mul (by omega)
  have hr : i % chainSize S S B n < chainSize S S B n := Nat.mod_lt _ hchain
  obtain ⟨m, hm, h1, h2⟩ := psum_decomp (levelSize S S B) n _ hr
  have e1 : psum (levelSize S S B) m = chainSize S S B m := rfl
  have e2 : levelSize S S B m = mipDim S m * (mipDim S m * B) := by
    unfold levelSize; ring
  have hp : 0 < mipDim S m * B := by
    rcases Nat.eq_zero_or_pos (mipDim S m * B) with h0 | h0
    · rw [h0, Nat.mul_zero] at e2
      omega
    · exact h0
  have hqlt : i % chainSize S S B n - chainSize S S B m <
      mipDim S m * (mipDim S m * B) := by omega
  have hqlt2 : i % chainSize S S B n - chainSize S S B m <
      (mipDim S m * B) * mipDim S m := by
    rw [Nat.mul_comm]
    exact hqlt
  refine ⟨i / chainSize S S B n, m,
    (i % chainSize S S B n - chainSize S S B m) / (mipDim S m * B),
    (i % chainSize S S B n - chainSize S S B m) % (mipDim S m * B),
    hf, hm, Nat.div_lt_of_lt_mul hqlt2, Nat.mod_lt _ hp, ?_⟩
  unfold faceMipOffset
  have hdm := Nat.div_add_mod i (chainSize S S B n)
  have hqdm := Nat.div_add_mod (i % chainSize S S B n - chainSize S S B m) (mipDim S m * B)
  have hmul : chainSize S S B n * (i / chainSize S S B n) =
      (i / chainSize S S B n) * chainSize S S B n := Nat.mul_comm _ _
  have hmul2 : (mipDim S m * B) *
      ((i % chainSize S S B n - chainSize S S B m) / (mipDim S m * B)) =
      ((i % chainSize S S B n - chainSize S S B m) / (mipDim S m * B)) * (mipDim S m * B) :=
    Nat.mul_comm _ _
  omega

theorem writeRange_out_lo {γ : Type _} (buf : Nat → γ) (off len : Nat) (src : Nat → γ)
    (i : Nat) (h : i < off) : writeRange buf off len src i = buf i :=
  writeRange_out _ _ _ _ _ (by omega)

theorem writeRange_out_hi {γ : Type _} (buf : Nat → γ) (off len : Nat) (src : Nat → γ)
    (i : Nat) (h : off + len ≤ i) : writeRange buf off len src i = buf i :=
  writeRange_out _ _ _ _ _ (by omega)

/-- Reading the cube buffer built by `imageCubemapFromHStrip` at the
location of face `f`, mip `m`, row `y`, byte `t` yields the strip byte at
column `f` of the same mip and row. -/
theorem cubeFromHStripData_at (S B n : Nat) (stripData g : Nat → Nat)
    (f m y t : Nat) (hf : f < 6) (hm : m < n) (hy : y < mipDim S m)
    (ht : t < mipDim S m * B) :
    cubeFromHStripData (S * 6) S B n stripData g
        (faceMipOffset S S B n f m + y * (mipDim S m * B) + t) =
      stripData (chainSize (S * 6) S B m + (mipDim S m * B) * f +
        y * ((mipDim S m * B) * 6) + t) := by
  have hyp : y * (mipDim S m * B) + (mipDim S m * B) ≤ mipDim S m * (mipDim S m * B) := by
    have h1 : (y + 1) * (mipDim S m * B) ≤ mipDim S m * (mipDim S m * B) :=
      Nat.mul_le_mul_right _ hy
    have h2 : (y + 1) * (mipDim S m * B) = y * (mipDim S m * B) + (mipDim S m * B) := by ring
    omega
  have hlev : mipDim S m * (mipDim S m * B) = levelSize S S B m := by
    unfold levelSize; ring
  have hsucc : chainSize S S B m + levelSize S S B m = chainSize S S B (m + 1) :=
    (chainSize_succ S S B m).symm
  have hmono : chainSize S S B (m + 1) ≤ chainSize S S B n := chainSize_mono S S B hm
  have hrel : chainSize S S B m + y * (mipDim S m * B) + t < chainSize S S B n := by omega
  show forFold 6 _ g _ = _
  refine forFold_grid_hit 6 (chainSize S S B n) 0 _ g _ f _ hf ?_ ?_ ?_
  · -- later faces write at or above their face block
    intro k hk1 hk2 buf j hj
    refine forFold_out n _ buf j ?_
    intro m2 hm2 buf2
    refine forFold_out _ _ buf2 j ?_
    intro y2 hy2 buf3
    refine writeRange_out_lo _ _ _ _ j ?_
    unfold faceMipOffset
    omega
  · -- face f: hit mip m, then row y
    intro buf
    refine forFold_hit n _ buf _ m _ hm ?_ ?_
    · -- mip m: hit row y
      intro buf2
      refine forFold_grid_hit (mipDim S m) (mipDim S m * B)
        (faceMipOffset S S B n f m) _ buf2 _ y _ hy ?_ ?_ ?_
      · intro k hk1 hk2 buf3 j hj
        exact writeRange_out_lo _ _ _ _ j (by omega)
      · intro buf3
        rw [writeRange_in _ _ _ _ _ (by omega) (by omega)]
        congr 1
        omega
      · omega
    · -- mips after m write at or above their mip block
      intro m2 hm21 hm22 buf2
      refine forFold_out _ _ buf2 _ ?_
      intro y2 hy2 buf3
      refine writeRange_out_lo _ _ _ _ _ ?_
      have hmono2 : chainSize S S B (m + 1) ≤ chainSize S S B m2 := chainSize_mono S S B hm21
      unfold faceMipOffset
      omega
  · unfold faceMipOffset
    omega

/-- A strip row write for `(f2, y2)` misses the byte of `(f, y)` in the
same mip when `(f2, y2) ≠ (f, y)` as packed column indices. -/
theorem strip_row_miss {γ : Type _} (buf : Nat → γ) (sOff p f y t f2 y2 : Nat)
    (src : Nat → γ) (hne : f2 + 6 * y2 ≠ f + 6 * y) (ht : t < p) :
    writeRange buf (sOff + p * f2 + y2 * (p * 6)) p src (sOff + p * f + y * (p * 6) + t) =
      buf (sOff + p * f + y * (p * 6) + t) := by
  have e1 : sOff + p * f + y * (p * 6) + t = sOff + p * (f + 6 * y) + t := by ring
  have e2 : sOff + p * f2 + y2 * (p * 6) = sOff + p * (f2 + 6 * y2) := by ring
  rw [e1, e2]
  exact writeRange_miss_block buf sOff p (f + 6 * y) (f2 + 6 * y2) t src (Ne.symm hne) ht

/-- Reading the strip buffer built by `imageHStripFromCubemap` at column
`f` of mip `m`, row `y`, byte `t` yields the corresponding cube byte,
provided every mip but the last satisfies the natural-chain shape condition
(`6·mipDim S m ≤ mipDim (6S) m`, i.e. the six face rows fit in the strip
row of that level). -/
theorem hstripData_at (S B n : Nat) (srcData g : Nat → Nat)
    (hshape : ∀ m2, m2 + 1 < n → 6 * mipDim S m2 ≤ mipDim (S * 6) m2)
    (f m y t : Nat) (hf : f < 6) (hm : m < n) (hy : y < mipDim S m)
    (ht : t < mipDim S m * B) :
    hstripData S S B n srcData g
        (chainSize (S * 6) S B m + (mipDim S m * B) * f + y * ((mipDim S m * B) * 6) + t) =
      srcData (faceMipOffset S S B n f m + y * (mipDim S m * B) + t) := by
  -- shorthand facts about the target location
  have hcontain : ∀ m2, m2 + 1 < n → ∀ f2 y2, f2 < 6 → y2 < mipDim S m2 →
      (mipDim S m2 * B) * f2 + y2 * ((mipDim S m2 * B) * 6) + (mipDim S m2 * B) ≤
        levelSize (S * 6) S B m2 := by
    intro m2 hm2 f2 y2 hf2 hy2
    have h1 : f2 + 6 * y2 + 1 ≤ 6 * mipDim S m2 := by omega
    have h2 : (mipDim S m2 * B) * (f2 + 6 * y2 + 1) ≤
        (mipDim S m2 * B) * (6 * mipDim S m2) :=
      Nat.mul_le_mul_left _ h1
    have h3 : (mipDim S m2 * B) * (6 * mipDim S m2) ≤
        (mipDim S m2 * B) * mipDim (S * 6) m2 := by
      refine Nat.mul_le_mul_left _ ?_
      exact hshape m2 hm2
    have h4 : (mipDim S m2 * B) * (f2 + 6 * y2 + 1) =
        (mipDim S m2 * B) * f2 + y2 * ((mipDim S m2 * B) * 6) + (mipDim S m2 * B) := by ring
    have h5 : (mipDim S m2 * B) * mipDim (S * 6) m2 = levelSize (S * 6) S B m2 := by
      unfold levelSize; ring
    omega
  have hssucc : ∀ m2, chainSize (S * 6) S B m2 + levelSize (S * 6) S B m2 =
      chainSize (S * 6) S B (m2 + 1) := fun m2 => (chainSize_succ (S * 6) S B m2).symm
  show forFold 6 _ g _ = _
  refine forFold_hit 6 _ g _ f _ hf ?_ ?_
  · -- face f: hit mip m, then row y
    intro buf
    refine forFold_hit n _ buf _ m _ hm ?_ ?_
    · -- mip m: hit row y, later rows miss by the packed-column argument
      intro buf2
      refine forFold_hit (mipDim S m) _ buf2 _ y _ hy ?_ ?_
      · intro buf3
        rw [writeRange_in _ _ _ _ _ (by omega) (by omega)]
        congr 1
        omega
      · intro y2 hy21 hy22 buf3
        exact strip_row_miss buf3 _ _ f y t f y2 _ (by omega) ht
    · -- mips after m (of the same face): they write at or above the next
      -- mip block, while the target is inside block m
      intro m2 hm21 hm22 buf2
      refine forFold_out _ _ buf2 _ ?_
      intro y2 hy2 buf3
      refine writeRange_out_lo _ _ _ _ _ ?_
      have h1 := hcontain m (by omega) f y hf hy
      have h2 := hssucc m
      have h3 : chainSize (S * 6) S B (m + 1) ≤ chainSize (S * 6) S B m2 :=
        chainSize_mono _ _ _ hm21
      have h4 : chainSize (S * 6) S B m2 ≤
          chainSize (S * 6) S B m2 + (mipDim S m2 * B) * f + y2 * ((mipDim S m2 * B) * 6) := by
        omega
      omega
  · -- faces after f
    intro f2 hf21 hf22 buf
    refine forFold_out n _ buf _ ?_
    intro m2 hm2 buf2
    refine forFold_out _ _ buf2 _ ?_
    intro y2 hy2 buf3
    rcases Nat.lt_trichotomy m2 m with hcase | hcase | hcase
    · -- earlier mip of a later face: its writes end below block m
      refine writeRange_out_hi _ _ _ _ _ ?_
      have h1 := hcontain m2 (by omega) f2 y2 (by omega) hy2
      have h2 := hssucc m2
      have h3 : chainSize (S * 6) S B (m2 + 1) ≤ chainSize (S * 6) S B m :=
        chainSize_mono _ _ _ hcase
      omega
    · -- same mip, later face: packed-column argument
      subst hcase
      exact strip_row_miss buf3 _ _ f y t f2 y2 _ (by omega) ht
    · -- later mip of a later face
      refine writeRange_out_lo _ _ _ _ _ ?_
      have h1 := hcontain m (by omega) f y hf hy
      have h2 := hssucc m
      have h3 : chainSize (S * 6) S B (m + 1) ≤ chainSize (S * 6) S B m2 :=
        chainSize_mono _ _ _ hcase
      have h4 : chainSize (S * 6) S B m2 ≤
          chainSize (S * 6) S B m2 + (mipDim S m2 * B) * f2 + y2 * ((mipDim S m2 * B) * 6) := by
        omega
      omega

theorem shape_of_natural (S m : Nat) (h : 2 ^ m ≤ S) :
    6 * mipDim S m ≤ mipDim (S * 6) m := by
  have h2 : 0 < 2 ^ m := Nat.pos_pow_of_pos m (by norm_num)
  have hs : 1 ≤ S / 2 ^ m := (Nat.one_le_div_iff h2).mpr h
  have e1 : mipDim S m = S / 2 ^ m := by
    unfold mipDim
    rw [Nat.shiftRight_eq_div_pow]
    omega
  have e2 : 6 * (S / 2 ^ m) ≤ S * 6 / 2 ^ m := by
    have := Nat.mul_div_le_mul_div_assoc 6 S (2 ^ m)
    have e3 : S * 6 = 6 * S := Nat.mul_comm _ _
    rw [e3]
    exact this
  have e4 : S * 6 / 2 ^ m ≤ mipDim (S * 6) m := by
    unfold mipDim
    rw [Nat.shiftRight_eq_div_pow]
    omega
  omega

/-- C8, counterexample: the round trip is NOT the identity for every
cube map. For the 1×1 RGB8 cube map with THREE mip levels (a valid
ImageBuffer: sizes clamp at 1×1) and bytes `0..53`, the strip writes of
face 3, mip 1 land on the same strip bytes as face 0, mip 2 (the strip mip
1 row, 3 bytes wide, cannot hold six 1-pixel faces), so the rebuilt cube
returns byte 30 where the original held byte 6. -/
theorem C8_strip_roundtrip_counterexample :
    ¬ Image.Eqv
      (imageCubemapFromHStrip (fun _ => 0) imgNull
        (imageHStripFromCubemap (fun _ => 0) imgNull
          ⟨1, 1, RGB8, 3, 6, 54, fun i => i⟩).2).2
      ⟨1, 1, RGB8, 3, 6, 54, fun i => i⟩ := by
  intro h
  have h0 := h.2.2.2.2.2.2 6 (by decide!)
  have h1 : (imageCubemapFromHStrip (fun _ => 0) imgNull
      (imageHStripFromCubemap (fun _ => 0) imgNull
        ⟨1, 1, RGB8, 3, 6, 54, fun i => i⟩).2).2.m_data 6 = 30 := by decide!
  have h2 : (⟨1, 1, RGB8, 3, 6, 54, fun i => i⟩ : Image).m_data 6 = 6 := by decide!
  rw [h1, h2] at h0
  exact absurd h0 (by decide)

/-- C8 as amended: `cube_from_hstrip (hstrip_from_cube c)` is bit-identical
to `c` for every cube map (six faces, square, §3 buffer size) whose mip
count stays within the natural chain plus one level — precisely, every mip
level except the last must still have an unclamped width
(`2^m ≤ faceSize`). For mip counts two or more levels beyond the natural
chain the strip writes collide and the round trip loses data. -/
theorem C8_strip_roundtrip (g1 g2 : Nat → Nat) (dst1 dst2 c : Image)
    (hfaces : c.m_numFaces = 6) (hsq : c.m_width = c.m_height)
    (hsize : c.m_dataSize =
      6 * chainSize c.m_width c.m_height (bytesPerPixelOf c.m_format) c.m_numMips)
    (hnat : ∀ m, m + 1 < c.m_numMips → 2 ^ m ≤ c.m_width) :
    (imageHStripFromCubemap g1 dst1 c).1 = true ∧
    (imageCubemapFromHStrip g2 dst2 (imageHStripFromCubemap g1 dst1 c).2).1 = true ∧
    Image.Eqv (imageCubemapFromHStrip g2 dst2 (imageHStripFromCubemap g1 dst1 c).2).2 c := by
  obtain ⟨W, H, fmt, nm, faces, sz, cdata⟩ := c
  simp only at hfaces hsq hsize hnat
  subst hfaces
  subst hsq
  subst hsize
  have hcube : imageIsCubemap ⟨W, W, fmt, nm, 6,
      6 * chainSize W W (bytesPerPixelOf fmt) nm, cdata⟩ := ⟨rfl, rfl⟩
  have hstep1 : imageHStripFromCubemap g1 dst1 ⟨W, W, fmt, nm, 6,
      6 * chainSize W W (bytesPerPixelOf fmt) nm, cdata⟩ =
      (true, ⟨W * 6, W, fmt, nm, 1,
        chainSize (W * 6) W (bytesPerPixelOf fmt) nm,
        hstripData W W (bytesPerPixelOf fmt) nm cdata g1⟩) := by
    unfold imageHStripFromCubemap
    rw [if_neg (not_not_intro hcube)]
  rw [hstep1]
  have hhstrip : imageIsHStrip ⟨W * 6, W, fmt, nm, 1,
      chainSize (W * 6) W (bytesPerPixelOf fmt) nm,
      hstripData W W (bytesPerPixelOf fmt) nm cdata g1⟩ := by
    show W * 6 = 6 * W
    ring
  have hstep2 : imageCubemapFromHStrip g2 dst2 ⟨W * 6, W, fmt, nm, 1,
      chainSize (W * 6) W (bytesPerPixelOf fmt) nm,
      hstripData W W (bytesPerPixelOf fmt) nm cdata g1⟩ =
      (true, ⟨W, W, fmt, nm, 6, 6 * chainSize W W (bytesPerPixelOf fmt) nm,
        cubeFromHStripData (W * 6) W (bytesPerPixelOf fmt) nm
          (hstripData W W (bytesPerPixelOf fmt) nm cdata g1) g2⟩) := by
    unfold imageCubemapFromHStrip
    rw [if_neg (not_not_intro hhstrip)]
  rw [hstep2]
  refine ⟨rfl, rfl, rfl, rfl, rfl, rfl, rfl, rfl, ?_⟩
  dsimp only
  intro i hi
  obtain ⟨f, m, y, t, hfb, hmb, hyb, htb, hieq⟩ :=
    cube_index_decomp W (bytesPerPixelOf fmt) nm i hi
  subst hieq
  rw [cubeFromHStripData_at W (bytesPerPixelOf fmt) nm _ g2 f m y t hfb hmb hyb htb]
  rw [hstripData_at W (bytesPerPixelOf fmt) nm cdata g1
    (fun m2 hm2 => shape_of_natural W m2 (hnat m2 hm2)) f m y t hfb hmb hyb htb]

/-- C8 witness: the amended round trip instantiated at a concrete 2×2 RGB8
cube map with two mip levels (bytes `0..89`). -/
theorem C8_strip_roundtrip_witness :
    ((⟨2, 2, RGB8, 2, 6, 90, fun i => i⟩ : Image).m_numFaces = 6) ∧
    (imageHStripFromCubemap (fun _ => 7) imgNull ⟨2, 2, RGB8, 2, 6, 90, fun i => i⟩).1 = true ∧
    (imageCubemapFromHStrip (fun _ => 9) imgNull
      (imageHStripFromCubemap (fun _ => 7) imgNull ⟨2, 2, RGB8, 2, 6, 90, fun i => i⟩).2).1 = true ∧
    Image.Eqv
      (imageCubemapFromHStrip (fun _ => 9) imgNull
        (imageHStripFromCubemap (fun _ => 7) imgNull ⟨2, 2, RGB8, 2, 6, 90, fun i => i⟩).2).2
      ⟨2, 2, RGB8, 2, 6, 90, fun i => i⟩ := by
  have h := C8_strip_roundtrip (fun _ => 7) (fun _ => 9) imgNull imgNull
    ⟨2, 2, RGB8, 2, 6, 90, fun i => i⟩ (by decide) (by decide) (by decide!)
    (fun m hm => by
      have hm2 : m + 1 < 2 := hm
      have hm0 : m = 0 := by omega
      subst hm0
      decide)
  exact ⟨rfl, h.1, h.2.1, h.2.2⟩

/-! ## DDS codec (constants lines 300-500, `ddsHeaderFromImage` lines
628-670, `imageSaveDds` lines 3962-4030, `imageLoadDds` lines 3170-3371).
Files are byte lists; a saved file is the exact fwrite sequence. -/

def DDS_MAGIC : Nat := 0x20534444
def DDS_HEADER_SIZE : Nat := 124
def DDS_DX10 : Nat := 0x30315844
def DDSD_CAPS : Nat := 0x1
def DDSD_HEIGHT : Nat := 0x2
def DDSD_WIDTH : Nat := 0x4
def DDSD_PITCH : Nat := 0x8
def DDSD_PIXELFORMAT : Nat := 0x1000
def DDSD_MIPMAPCOUNT : Nat := 0x20000
def DDPF_FOURCC : Nat := 0x4
def DDPF_RGB : Nat := 0x40
def DDPF_RGBA : Nat := 0x41
def DDS_PF_BC_24 : Nat := 0x100000
def DDS_PF_BC_32 : Nat := 0x200000
def DDS_PF_BC_48 : Nat := 0x400000
def DDSCAPS_COMPLEX : Nat := 0x8
def DDSCAPS_TEXTURE : Nat := 0x1000
def DDSCAPS_MIPMAP : Nat := 0x400000
def DDSCAPS2_CUBEMAP : Nat := 0x200
def DDS_CUBEMAP_ALLFACES : Nat := 0xFC00
def DDS_DIMENSION_TEXTURE2D : Nat := 3
def D3D10_RESOURCE_MISC_TEXTURECUBE : Nat := 4

structure DdsPixelFormat where
  m_size : Nat
  m_flags : Nat
  m_fourcc : Nat
  m_rgbBitCount : Nat
  m_rBitMask : Nat
  m_gBitMask : Nat
  m_bBitMask : Nat
  m_aBitMask : Nat

/-- Table `s_ddsPixelFormat` together with the dispatch
`getDdsPixelFormat` (lines 435-452); the final `else` of the source covers
every remaining format with the RGBA32F row. -/
def getDdsPixelFormat : TextureFormat → DdsPixelFormat
  | BGR8 => ⟨32, DDPF_RGB, 20, 24, 0xff0000, 0xff00, 0xff, 0⟩
  | BGRA8 => ⟨32, DDPF_RGBA, 32, 32, 0xff0000, 0xff00, 0xff, 0xff000000⟩
  | RGBA16 => ⟨32, DDPF_FOURCC, DDS_DX10, 64, 0xff0000, 0xff00, 0xff, 0xff000000⟩
  | RGBA16F => ⟨32, DDPF_FOURCC, DDS_DX10, 64, 0xff0000, 0xff00, 0xff, 0xff000000⟩
  | _ => ⟨32, DDPF_FOURCC, DDS_DX10, 128, 0xff0000, 0xff00, 0xff, 0xff000000⟩

/-- `getDdsDxgiFormat` (lines 454-460). -/
def getDdsDxgiFormat : TextureFormat → Nat
  | RGBA16 => 12
  | RGBA16F => 10
  | RGBA32F => 2
  | _ => 0

structure DdsHeader where
  m_size : Nat
  m_flags : Nat
  m_height : Nat
  m_width : Nat
  m_pitchOrLinearSize : Nat
  m_depth : Nat
  m_mipMapCount : Nat
  m_pixelFormat : DdsPixelFormat
  m_caps : Nat
  m_caps2 : Nat
  m_caps3 : Nat
  m_caps4 : Nat
  m_reserved2 : Nat

structure DdsHeaderDxt10 where
  m_dxgiFormat : Nat
  m_resourceDimension : Nat
  m_miscFlags : Nat
  m_arraySize : Nat
  m_miscFlags2 : Nat

/-- `ddsHeaderFromImage` (lines 628-670); the struct is memset to zero so
`m_depth` and the reserved fields are 0. -/
def ddsHeaderFromImage (img : Image) : DdsHeader :=
  let pf := getDdsPixelFormat img.m_format
  let bytesPerPixel := bytesPerPixelOf img.m_format
  let hasMipMaps := 1 < img.m_numMips
  let hasMultipleFaces := 0 < img.m_numFaces
  let isCubemap := img.m_numFaces = 6
  { m_size := DDS_HEADER_SIZE
    m_flags := DDSD_CAPS ||| DDSD_HEIGHT ||| DDSD_WIDTH ||| DDSD_PIXELFORMAT |||
      (if hasMipMaps then DDSD_MIPMAPCOUNT else 0) ||| DDSD_PITCH
    m_height := img.m_height
    m_width := img.m_width
    m_pitchOrLinearSize := img.m_width * bytesPerPixel
    m_depth := 0
    m_mipMapCount := img.m_numMips
    m_pixelFormat := pf
    m_caps := DDSCAPS_TEXTURE ||| (if hasMipMaps then DDSCAPS_MIPMAP else 0) |||
      (if hasMipMaps ∨ hasMultipleFaces then DDSCAPS_COMPLEX else 0)
    m_caps2 := if isCubemap then DDSCAPS2_CUBEMAP ||| DDS_CUBEMAP_ALLFACES else 0
    m_caps3 := 0
    m_caps4 := 0
    m_reserved2 := 0 }

/-- The DX10 branch of `ddsHeaderFromImage` (lines 637-652). -/
def ddsHeaderDxt10FromImage (img : Image) : DdsHeaderDxt10 :=
  ⟨getDdsDxgiFormat img.m_format, DDS_DIMENSION_TEXTURE2D,
   if img.m_numFaces = 6 then D3D10_RESOURCE_MISC_TEXTURECUBE else 0, 1, 0⟩

/-- The 124 header bytes in the field-by-field fwrite order of
`imageSaveDds` (lines 3986-4009); `m_reserved1` is 44 zero bytes. -/
def ddsHeaderBytes (h : DdsHeader) : List Nat :=
  u32le h.m_size ++ u32le h.m_flags ++ u32le h.m_height ++ u32le h.m_width ++
  u32le h.m_pitchOrLinearSize ++ u32le h.m_depth ++ u32le h.m_mipMapCount ++
  List.replicate 44 0 ++
  u32le h.m_pixelFormat.m_size ++ u32le h.m_pixelFormat.m_flags ++
  u32le h.m_pixelFormat.m_fourcc ++ u32le h.m_pixelFormat.m_rgbBitCount ++
  u32le h.m_pixelFormat.m_rBitMask ++ u32le h.m_pixelFormat.m_gBitMask ++
  u32le h.m_pixelFormat.m_bBitMask ++ u32le h.m_pixelFormat.m_aBitMask ++
  u32le h.m_caps ++ u32le h.m_caps2 ++ u32le h.m_caps3 ++ u32le h.m_caps4 ++
  u32le h.m_reserved2

def ddsHeaderDxt10Bytes (x : DdsHeaderDxt10) : List Nat :=
  u32le x.m_dxgiFormat ++ u32le x.m_resourceDimension ++ u32le x.m_miscFlags ++
  u32le x.m_arraySize ++ u32le x.m_miscFlags2

/-- The `fwrite(_image.m_data, 1, _image.m_dataSize, fp)` payload. -/
def payloadBytes (img : Image) : List Nat :=
  (List.range img.m_dataSize).map img.m_data

/-- `imageSaveDds` (lines 3962-4030): magic, header, the DX10 extension
header exactly when the pixel format fourcc is DX10, then the raw data. -/
def imageSaveDds (img : Image) : List Nat :=
  u32le DDS_MAGIC ++ ddsHeaderBytes (ddsHeaderFromImage img) ++
  (if (ddsHeaderFromImage img).m_pixelFormat.m_fourcc = DDS_DX10
    then ddsHeaderDxt10Bytes (ddsHeaderDxt10FromImage img) else []) ++
  payloadBytes img

/-- Little-endian u32 read at byte offset `k` of a file (fread of a
uint32_t); bytes past the end read 0. -/
def getU32 (bs : List Nat) (k : Nat) : Nat :=
  bs.getD k 0 + 256 * (bs.getD (k + 1) 0 + 256 * (bs.getD (k + 2) 0 + 256 * bs.getD (k + 3) 0))

/-- `TextureFormat::Enum(ii)`: the format with declaration ordinal `ii`. -/
def textureFormatOfOrdinal (ii : Nat) : TextureFormat :=
  [BGR8, RGB8, RGB16, RGB16F, RGB32F, RGBE, BGRA8, RGBA8, RGBA16, RGBA16F, RGBA32F,
   Unknown].getD ii Unknown

/-- Table `s_ddsValidFormats` (lines 85-93, without the terminating
sentinel `TEXTURE_FORMAT_NULL = Enum(-1)`). -/
def s_ddsValidFormats (ii : Nat) : TextureFormat :=
  [BGR8, BGRA8, RGBA16, RGBA16F, RGBA32F].getD ii Unknown

/-- Table `s_translateDdsDxgiFormat` (lines 490-500), first match. -/
def translateDdsDxgiFormat (v : Nat) : TextureFormat :=
  if v = 12 then RGBA16 else if v = 10 then RGBA16F else if v = 2 then RGBA32F
  else Unknown

/-- Table `s_translateDdsPfBitCount` (lines 462-471), first match, 0 when
absent. -/
def translateDdsPfBitCount (bc : Nat) : Nat :=
  if bc = 24 then DDS_PF_BC_24 else if bc = 32 then DDS_PF_BC_32
  else if bc = 48 then DDS_PF_BC_48 else 0

/-- Table `s_translateDdsFormat` (lines 473-488), first match. -/
def translateDdsFormat (v : Nat) : TextureFormat :=
  if v = 20 then BGR8 else if v = 21 then BGRA8 else if v = 36 then RGBA16
  else if v = 113 then RGBA16F else if v = 116 then RGBA32F
  else if v = (DDS_PF_BC_24 ||| DDPF_RGB) then BGR8
  else if v = (DDS_PF_BC_32 ||| DDPF_RGBA) then BGRA8
  else if v = (DDS_PF_BC_48 ||| DDPF_RGB) then RGB16
  else Unknown

/-- Bit-count format guess of `imageLoadDds` (lines 3302-3311): the loop
over `s_ddsValidFormats` has no `break`, so the LAST matching entry wins,
and it assigns `TextureFormat::Enum(ii)` — the loop ORDINAL, not the table
entry. Only the five real table rows are iterated here: the sixth C array
slot is the sentinel `Enum(-1)`, whose `getImageDataInfo` lookup reads out
of the table's bounds (undefined in C, never a match in practice). -/
def guessDdsFormat (bytesPerPixel : Nat) : TextureFormat :=
  forFold 5 (fun ii acc =>
    if bytesPerPixel = bytesPerPixelOf (s_ddsValidFormats ii) then
      textureFormatOfOrdinal ii
    else acc) Unknown

/-- `hasDdsDxt10` (line 3217): the fourcc is DX10 and — as written in the
source — the HEADER flags word (not the pixel-format flags) has the
`DDPF_FOURCC` bit, which coincides with `DDSD_WIDTH` there. -/
def ddsHasDxt10 (bs : List Nat) : Prop :=
  getU32 bs 84 = DDS_DX10 ∧ getU32 bs 8 &&& DDPF_FOURCC ≠ 0

instance (bs : List Nat) : Decidable (ddsHasDxt10 bs) := by
  unfold ddsHasDxt10; infer_instance

/-- Mip count after the `0 == mipMapCount` fixup of lines 3249-3253. -/
def ddsMipCount (bs : List Nat) : Nat :=
  if getU32 bs 28 = 0 then 1 else getU32 bs 28

/-- Format from the translation tables (lines 3262-3300): the DXGI path
when the DX10 header is present, otherwise the fourcc or the
flags-plus-bit-count key. -/
def ddsRawFormat (bs : List Nat) : TextureFormat :=
  if ddsHasDxt10 bs then translateDdsDxgiFormat (getU32 bs 128)
  else translateDdsFormat
    (if getU32 bs 80 &&& DDPF_FOURCC ≠ 0 then getU32 bs 84
     else getU32 bs 80 ||| translateDdsPfBitCount (getU32 bs 88))

/-- Format after the bit-count guess fallback (lines 3302-3311); the C
`uint8_t(rgbBitCount/8)` cast truncates to a byte. -/
def ddsResolvedFormat (bs : List Nat) : TextureFormat :=
  if ddsRawFormat bs = Unknown then guessDdsFormat (getU32 bs 88 / 8 % 256)
  else ddsRawFormat bs

def ddsNumFaces (bs : List Nat) : Nat :=
  if getU32 bs 112 &&& DDSCAPS2_CUBEMAP ≠ 0 then 6 else 1

/-- Data size accumulation of lines 3322-3334 (face-major over the mip
chain). -/
def ddsDataSize (bs : List Nat) : Nat :=
  ddsNumFaces bs *
    chainSize (getU32 bs 16) (getU32 bs 12) (bytesPerPixelOf (ddsResolvedFormat bs))
      (ddsMipCount bs)

/-- File position of the pixel data (lines 3340-3348): after the headers,
except that when the remaining byte count equals `dataSize - 20` the reader
seeks 20 bytes BACK (the work-around for files whose flags promise a DX10
header that is not there). -/
def ddsDataPos (bs : List Nat) : Nat :=
  (if ddsHasDxt10 bs then 148 else 128) -
    (if (bs.length : ℤ) - (if ddsHasDxt10 bs then (148 : ℤ) else 128) =
        (ddsDataSize bs : ℤ) - 20 then 20 else 0)

/-- `imageLoadDds` (lines 3170-3371). `g` is the arbitrary initial contents
of the `malloc` buffer (bytes the fread cannot fill from the file keep
it). The checks appear in source order; on any failure the destination is
returned untouched. `m_numMips` takes the C `uint8_t` cast. -/
def imageLoadDds (g : Nat → Nat) (dst : Image) (bs : List Nat) : Bool × Image :=
  if getU32 bs 0 ≠ DDS_MAGIC then (false, dst)
  else if getU32 bs 4 ≠ DDS_HEADER_SIZE then (false, dst)
  else if getU32 bs 8 &&& (DDSD_CAPS ||| DDSD_HEIGHT ||| DDSD_WIDTH ||| DDSD_PIXELFORMAT) ≠
      (DDSD_CAPS ||| DDSD_HEIGHT ||| DDSD_WIDTH ||| DDSD_PIXELFORMAT) then (false, dst)
  else if getU32 bs 108 &&& DDSCAPS_TEXTURE = 0 then (false, dst)
  else if getU32 bs 112 &&& DDSCAPS2_CUBEMAP ≠ 0 ∧
      getU32 bs 112 &&& DDS_CUBEMAP_ALLFACES ≠ DDS_CUBEMAP_ALLFACES then (false, dst)
  else if ddsResolvedFormat bs = Unknown then (false, dst)
  else
    (true,
      ⟨getU32 bs 16, getU32 bs 12, ddsResolvedFormat bs, ddsMipCount bs % 256,
       ddsNumFaces bs, ddsDataSize bs,
       fun i => if ddsDataPos bs + i < bs.length then bs.getD (ddsDataPos bs + i) 0 else g i⟩)

theorem getU32_append_left (l1 l2 : List Nat) (k : Nat) (h : k + 3 < l1.length) :
    getU32 (l1 ++ l2) k = getU32 l1 k := by
  unfold getU32
  rw [List.getD_append l1 l2 0 k (by omega), List.getD_append l1 l2 0 (k + 1) (by omega),
      List.getD_append l1 l2 0 (k + 2) (by omega), List.getD_append l1 l2 0 (k + 3) (by omega)]

theorem payloadBytes_length (img : Image) : (payloadBytes img).length = img.m_dataSize := by
  simp [payloadBytes]

theorem payloadBytes_getD (img : Image) (i : Nat) (h : i < img.m_dataSize) :
    (payloadBytes img).getD i 0 = img.m_data i := by
  unfold payloadBytes
  rw [List.getD_eq_getElem?_getD, List.getElem?_map, List.getElem?_range h]
  rfl

/-! ### Claim C3: the E1 scenario -/

/-- The E1 input pixel of face `k`: `(k/5, 0, 0, 1)`. -/
def e1Pixel (k : Nat) : Quad := ⟨(k : ℚ) / 5, 0, 0, 1⟩

/-- Data of the E1 input image: 64x64 RGBA16F, face-major (one face is
64·64·8 = 32768 bytes), every pixel of face `k` holding the RGBA16F
encoding of `e1Pixel k`. -/
def e1Data (i : Nat) : Nat :=
  (fromRgba32f RGBA16F (e1Pixel (i / 32768))).getD (i % 8) 0

def e1Image : Image := ⟨64, 64, RGBA16F, 1, 6, 196608, e1Data⟩

/-- The 148 bytes (magic, DdsHeader, DdsHeaderDxt10) that `imageSaveDds`
writes in front of the payload for the E1 image. -/
def ddsC148 : List Nat :=
  [68, 68, 83, 32, 124, 0, 0, 0, 15, 16, 0, 0, 64, 0, 0, 0, 64, 0, 0, 0, 0, 2, 0, 0,
   0, 0, 0, 0, 1, 0, 0, 0, 0, 0, 0, 0, 0, 0, 0, 0, 0, 0, 0, 0, 0, 0, 0, 0, 0, 0, 0, 0,
   0, 0, 0, 0, 0, 0, 0, 0, 0, 0, 0, 0, 0, 0, 0, 0, 0, 0, 0, 0, 0, 0, 0, 0, 32, 0, 0, 0,
   4, 0, 0, 0, 68, 88, 49, 48, 64, 0, 0, 0, 0, 0, 255, 0, 0, 255, 0, 0, 255, 0, 0, 0,
   0, 0, 0, 255, 8, 16, 0, 0, 0, 254, 0, 0, 0, 0, 0, 0, 0, 0, 0, 0, 0, 0, 0, 0,
   10, 0, 0, 0, 3, 0, 0, 0, 4, 0, 0, 0, 1, 0, 0, 0, 0, 0, 0, 0]

theorem e1_save_split : imageSaveDds e1Image = ddsC148 ++ payloadBytes e1Image := by
  have h1 : u32le DDS_MAGIC ++ ddsHeaderBytes (ddsHeaderFromImage e1Image) ++
      (if (ddsHeaderFromImage e1Image).m_pixelFormat.m_fourcc = DDS_DX10
        then ddsHeaderDxt10Bytes (ddsHeaderDxt10FromImage e1Image) else []) = ddsC148 := by
    decide!
  unfold imageSaveDds
  rw [h1]

theorem ddsC148_length : ddsC148.length = 148 := by decide

theorem e1_h0 : getU32 (ddsC148 ++ payloadBytes e1Image) 0 = DDS_MAGIC := by
  rw [getU32_append_left _ _ _ (by decide)]; decide

theorem e1_h4 : getU32 (ddsC148 ++ payloadBytes e1Image) 4 = 124 := by
  rw [getU32_append_left _ _ _ (by decide)]; decide

theorem e1_h8 : getU32 (ddsC148 ++ payloadBytes e1Image) 8 = 4111 := by
  rw [getU32_append_left _ _ _ (by decide)]; decide

theorem e1_h12 : getU32 (ddsC148 ++ payloadBytes e1Image) 12 = 64 := by
  rw [getU32_append_left _ _ _ (by decide)]; decide

theorem e1_h16 : getU32 (ddsC148 ++ payloadBytes e1Image) 16 = 64 := by
  rw [getU32_append_left _ _ _ (by decide)]; decide

theorem e1_h28 : getU32 (ddsC148 ++ payloadBytes e1Image) 28 = 1 := by
  rw [getU32_append_left _ _ _ (by decide)]; decide

theorem e1_h84 : getU32 (ddsC148 ++ payloadBytes e1Image) 84 = DDS_DX10 := by
  rw [getU32_append_left _ _ _ (by decide)]; decide

theorem e1_h108 : getU32 (ddsC148 ++ payloadBytes e1Image) 108 = 4104 := by
  rw [getU32_append_left _ _ _ (by decide)]; decide

theorem e1_h112 : getU32 (ddsC148 ++ payloadBytes e1Image) 112 = 65024 := by
  rw [getU32_append_left _ _ _ (by decide)]; decide

theorem e1_h128 : getU32 (ddsC148 ++ payloadBytes e1Image) 128 = 10 := by
  rw [getU32_append_left _ _ _ (by decide)]; decide

theorem e1_hlen : (ddsC148 ++ payloadBytes e1Image).length = 196756 := by
  rw [List.length_append, payloadBytes_length, ddsC148_length]
  rfl

theorem e1_hdx : ddsHasDxt10 (ddsC148 ++ payloadBytes e1Image) := by
  unfold ddsHasDxt10
  rw [e1_h84, e1_h8]
  exact ⟨rfl, by decide⟩

theorem e1_hmip : ddsMipCount (ddsC148 ++ payloadBytes e1Image) = 1 := by
  unfold ddsMipCount
  rw [e1_h28]
  decide

theorem e1_hres : ddsResolvedFormat (ddsC148 ++ payloadBytes e1Image) = RGBA16F := by
  have hraw : ddsRawFormat (ddsC148 ++ payloadBytes e1Image) = RGBA16F := by
    unfold ddsRawFormat
    rw [if_pos e1_hdx, e1_h128]
    decide
  unfold ddsResolvedFormat
  rw [hraw]
  decide

theorem e1_hfaces : ddsNumFaces (ddsC148 ++ payloadBytes e1Image) = 6 := by
  unfold ddsNumFaces
  rw [e1_h112]
  decide

theorem e1_hsize : ddsDataSize (ddsC148 ++ payloadBytes e1Image) = 196608 := by
  unfold ddsDataSize
  rw [e1_hfaces, e1_hres, e1_hmip, e1_h16, e1_h12]
  decide!

theorem ddsDataPos_eq (bs : List Nat) : ddsDataPos bs =
    (if ddsHasDxt10 bs then (148 : Nat) else 128) -
      (if (bs.length : ℤ) - (if ddsHasDxt10 bs then (148 : ℤ) else 128) =
         (ddsDataSize bs : ℤ) - 20 then 20 else 0) := rfl

theorem e1_hpos0 :
    (if ddsHasDxt10 (ddsC148 ++ payloadBytes e1Image) then (148 : Nat) else 128) -
      (if ((ddsC148 ++ payloadBytes e1Image).length : ℤ) -
          (if ddsHasDxt10 (ddsC148 ++ payloadBytes e1Image) then (148 : ℤ) else 128) =
         (ddsDataSize (ddsC148 ++ payloadBytes e1Image) : ℤ) - 20 then 20 else 0) = 148 := by
  rw [if_pos e1_hdx, e1_hlen, e1_hsize]
  decide

theorem e1_hpos : ddsDataPos (ddsC148 ++ payloadBytes e1Image) = 148 :=
  (ddsDataPos_eq (ddsC148 ++ payloadBytes e1Image)).trans e1_hpos0

theorem e1_hload (g : Nat → Nat) :
    imageLoadDds g imgNull (ddsC148 ++ payloadBytes e1Image) =
      (true, ⟨64, 64, RGBA16F, 1, 6, 196608,
        fun i => if 148 + i < (ddsC148 ++ payloadBytes e1Image).length
          then (ddsC148 ++ payloadBytes e1Image).getD (148 + i) 0 else g i⟩) := by
  unfold imageLoadDds
  rw [if_neg (by rw [e1_h0]; exact fun h => h rfl)]
  rw [if_neg (by rw [e1_h4]; exact fun h => h rfl)]
  rw [if_neg (by rw [e1_h8]; decide)]
  rw [if_neg (by rw [e1_h108]; decide)]
  rw [if_neg (by rw [e1_h112]; decide)]
  rw [if_neg (by rw [e1_hres]; decide)]
  simp only [e1_h16, e1_h12, e1_hres, e1_hmip, e1_hfaces, e1_hsize, e1_hpos]

/-- C3: the E1 round trip. Saving the 64×64 RGBA16F 6-face 1-mip image
whose face `k` is filled with the pixel `(k/5, 0, 0, 1)` as DDS and
reloading the written bytes succeeds, reproduces the payload bytes
bit-exactly together with all metadata, and the reloaded image satisfies
`isCubemap = true`, `numFaces = 6`, `numMips = 1`, `format = RGBA16F`.
`g` is the arbitrary initial contents of the loader's `malloc` buffer
(never visible: the file carries every payload byte). -/
theorem C3_dds_roundtrip_e1 (g : Nat → Nat) :
    (imageLoadDds g imgNull (imageSaveDds e1Image)).1 = true ∧
    imageIsCubemap (imageLoadDds g imgNull (imageSaveDds e1Image)).2 ∧
    (imageLoadDds g imgNull (imageSaveDds e1Image)).2.m_numFaces = 6 ∧
    (imageLoadDds g imgNull (imageSaveDds e1Image)).2.m_numMips = 1 ∧
    (imageLoadDds g imgNull (imageSaveDds e1Image)).2.m_format = RGBA16F ∧
    Image.Eqv (imageLoadDds g imgNull (imageSaveDds e1Image)).2 e1Image := by
  rw [e1_save_split, e1_hload]
  refine ⟨rfl, ⟨rfl, rfl⟩, rfl, rfl, rfl, rfl, rfl, rfl, rfl, rfl, rfl, ?_⟩
  intro i hi
  have hi2 : i < 196608 := hi
  dsimp only
  rw [if_pos (by rw [e1_hlen]; omega)]
  rw [List.getD_append_right ddsC148 _ 0 (148 + i) (by rw [ddsC148_length]; omega)]
  rw [ddsC148_length]
  have he : 148 + i - 148 = i := by omega
  rw [he, payloadBytes_getD e1Image i hi2]

/-! ## KTX codec (constants lines 502-622, `ktxHeaderFromImage` lines
734-758, `imageSaveKtx` lines 4032-4146, `imageLoadKtx` lines 3373-3540) -/

def ktxMagicBytes : List Nat :=
  [0xAB, 0x4B, 0x54, 0x58, 0x20, 0x31, 0x31, 0xBB, 0x0D, 0x0A, 0x1A, 0x0A]

def KTX_ENDIAN_REF : Nat := 0x04030201
def KTX_MAGIC_SHORT : Nat := 0x58544BAB

/-- `s_pixelDataTypeToGlType` (lines 590-597): GL_UNSIGNED_BYTE,
GL_UNSIGNED_SHORT, GL_UNSIGNED_INT, GL_HALF_FLOAT, GL_FLOAT. -/
def pixelDataTypeToGlType (pdt : Nat) : Nat :=
  [0x1401, 0x1403, 0x1405, 0x140B, 0x1406].getD pdt 0

/-- Table `s_glSizedInternalFormats` (lines 568-582):
`(m_glInternalFormat, m_glFormat)` per texture format. -/
def getGlSizedInternalFormat : TextureFormat → Nat × Nat
  | BGR8 => (0, 0)
  | RGB8 => (0x8D7D, 0x1907)
  | RGB16 => (0x8D77, 0x1907)
  | RGB16F => (0x881B, 0x1907)
  | RGB32F => (0x8815, 0x1907)
  | RGBE => (0, 0)
  | BGRA8 => (0, 0)
  | RGBA8 => (0x8D7C, 0x1908)
  | RGBA16 => (0x8D76, 0x1908)
  | RGBA16F => (0x881A, 0x1908)
  | RGBA32F => (0x8814, 0x1908)
  | Unknown => (0, 0)

/-- The 52 header bytes written by `imageSaveKtx` (fwrite order of lines
4056-4068, fields from `ktxHeaderFromImage`): endianness, glType,
glTypeSize, glFormat, glInternalFormat, glBaseInternalFormat (= glFormat),
width, height, depth 0, array elements 0, faces, mips, key-value bytes 0. -/
def ktxHeaderFromImage (img : Image) : List Nat :=
  u32le KTX_ENDIAN_REF ++
  u32le (pixelDataTypeToGlType (getImageDataInfo img.m_format).m_pixelType) ++
  u32le ((getImageDataInfo img.m_format).m_bytesPerPixel /
    (getImageDataInfo img.m_format).m_numChanels) ++
  u32le (getGlSizedInternalFormat img.m_format).2 ++
  u32le (getGlSizedInternalFormat img.m_format).1 ++
  u32le (getGlSizedInternalFormat img.m_format).2 ++
  u32le img.m_width ++ u32le img.m_height ++ u32le 0 ++ u32le 0 ++
  u32le img.m_numFaces ++ u32le img.m_numMips ++ u32le 0

/-- `(KTX_UNPACK_ALIGNMENT-1)-((x + KTX_UNPACK_ALIGNMENT-1) &
(KTX_UNPACK_ALIGNMENT-1))`: bytes of zero padding after an `x`-byte block
(lines 4089-4091). -/
def ktxRounding (x : Nat) : Nat := 3 - ((x + 3) &&& 3)

/-- `imageSaveKtx` (lines 4032-4146): magic, header, then per mip a u32
`faceSize` (pitch·height, UNPADDED) followed by each face — written row by
row with row padding when the pitch is not 4-aligned, whole at once
otherwise — plus face and mip padding. Offsets into the source are the
`imageGetMipOffsets` table. -/
def imageSaveKtx (img : Image) : List Nat :=
  ktxMagicBytes ++ ktxHeaderFromImage img ++
  (List.range img.m_numMips).flatMap (fun mip =>
    u32le (mipDim img.m_width mip * bytesPerPixelOf img.m_format * mipDim img.m_height mip) ++
    ((List.range img.m_numFaces).flatMap (fun face =>
      (if ktxRounding (mipDim img.m_width mip * bytesPerPixelOf img.m_format) = 0 then
        (List.range (mipDim img.m_width mip * bytesPerPixelOf img.m_format *
            mipDim img.m_height mip)).map
          (fun t => img.m_data
            (faceMipOffset img.m_width img.m_height (bytesPerPixelOf img.m_format)
              img.m_numMips face mip + t))
      else
        (List.range (mipDim img.m_height mip)).flatMap (fun yy =>
          (List.range (mipDim img.m_width mip * bytesPerPixelOf img.m_format)).map
            (fun t => img.m_data
              (faceMipOffset img.m_width img.m_height (bytesPerPixelOf img.m_format)
                img.m_numMips face mip +
               yy * (mipDim img.m_width mip * bytesPerPixelOf img.m_format) + t)) ++
          List.replicate (ktxRounding (mipDim img.m_width mip * bytesPerPixelOf img.m_format)) 0)) ++
      List.replicate (ktxRounding (mipDim img.m_width mip * bytesPerPixelOf img.m_format *
        mipDim img.m_height mip)) 0) ++
     List.replicate (ktxRounding (mipDim img.m_width mip * bytesPerPixelOf img.m_format *
       mipDim img.m_height mip * img.m_numFaces)) 0))

/-- Table `s_translateKtxFormat` (lines 605-622), first match on the file
glInternalFormat. -/
def translateKtxFormat (v : Nat) : TextureFormat :=
  if v = 0x1907 then RGB8 else if v = 0x8D7D then RGB8 else if v = 0x8D77 then RGB16
  else if v = 0x881B then RGB16F else if v = 0x8815 then RGB32F
  else if v = 0x1908 then RGBA8 else if v = 0x8D7C then RGBA8
  else if v = 0x8D76 then RGBA16 else if v = 0x881A then RGBA16F
  else if v = 0x8814 then RGBA32F else Unknown

/-- `imageLoadKtx` (lines 3373-3540). `g` is the arbitrary initial
contents of the `malloc` buffer. The cursor-threaded fold mirrors the
file reads: per mip a u32 face size (taken from the FILE, and trusted for
the face/mip padding arithmetic), then per face either one whole-face read
or — when the mip pitch is not 4-aligned — one read per row; the row loop
runs over the BASE `m_pixelHeight` as in the source (line 3496), not the
mip height. Destination offsets come from the same accumulation as
`imageGetMipOffsets`. The final casts of mips and faces are the C
`uint8_t` truncations. -/
def imageLoadKtx (g : Nat → Nat) (dst : Image) (bs : List Nat) : Bool × Image :=
  if bs.take 12 ≠ ktxMagicBytes then (false, dst)
  else if translateKtxFormat (getU32 bs 28) = Unknown then (false, dst)
  else
    let width := getU32 bs 36
    let height := getU32 bs 40
    let numFaces := getU32 bs 52
    let numMips := if getU32 bs 56 = 0 then 1 else getU32 bs 56
    let fmt := translateKtxFormat (getU32 bs 28)
    let bpp := bytesPerPixelOf fmt
    let final := forFold numMips (fun mip st =>
      let pitch := mipDim width mip * bpp
      let faceSize := getU32 bs st.1
      let st2 := forFold numFaces (fun face st3 =>
        let dstOff := faceMipOffset width height bpp numMips face mip
        if ktxRounding pitch = 0 then
          (st3.1 + faceSize + ktxRounding faceSize,
           writeRange st3.2 dstOff faceSize (fun t => bs.getD (st3.1 + t) 0))
        else
          let st4 := forFold height (fun yy st5 =>
            (st5.1 + pitch + ktxRounding pitch,
             writeRange st5.2 (dstOff + yy * pitch) pitch
               (fun t => bs.getD (st5.1 + t) 0))) st3
          (st4.1 + ktxRounding faceSize, st4.2))
        (st.1 + 4, st.2)
      (st2.1 + ktxRounding (faceSize * numFaces), st2.2))
      (64 + getU32 bs 60, g)
    (true, ⟨width, height, fmt, numMips % 256, numFaces % 256,
      numFaces * chainSize width height bpp numMips, final.2⟩)

/-! ### Claim C4: the 3×1 RGB8 KTX row-pad scenario -/

theorem map_range_getD (f : Nat → Nat) (n i : Nat) (h : i < n) :
    ((List.range n).map f).getD i 0 = f i := by
  rw [List.getD_eq_getElem?_getD, List.getElem?_map, List.getElem?_range h]
  rfl

/-- The 64 bytes (magic and header) that `imageSaveKtx` writes in front of
the first mip block for a 3×1 RGB8 single-face single-mip image. -/
def ktxC64 : List Nat :=
  [171, 75, 84, 88, 32, 49, 49, 187, 13, 10, 26, 10, 1, 2, 3, 4, 1, 20, 0, 0,
   1, 0, 0, 0, 7, 25, 0, 0, 125, 141, 0, 0, 7, 25, 0, 0, 3, 0, 0, 0, 1, 0, 0, 0,
   0, 0, 0, 0, 0, 0, 0, 0, 1, 0, 0, 0, 1, 0, 0, 0, 0, 0, 0, 0]

/-- C4, counterexample: the u32 written after the 64 header bytes — the
KTX `imageSize` field — is the UNPADDED `pitch · height = 9`, not the
padded 12 the claim (quoting spec E6) states. -/
theorem C4_ktx_facesize_counterexample :
    getU32 (imageSaveKtx ⟨3, 1, RGB8, 1, 1, 9, fun i => 10 + i⟩) 64 = 9 ∧ (9 : Nat) ≠ 12 :=
  ⟨by decide!, by decide⟩

theorem ktx31_save_split (d : Nat → Nat) :
    imageSaveKtx ⟨3, 1, RGB8, 1, 1, 9, d⟩ =
      ktxC64 ++ u32le 9 ++ (List.range 9).map d ++ List.replicate 3 0 ++
        List.replicate 3 0 ++ List.replicate 3 0 := by
  have hhdr0 : ktxMagicBytes ++ ktxHeaderFromImage ⟨3, 1, RGB8, 1, 1, 9, fun _ => 0⟩ =
      ktxC64 := by decide!
  have hhdr : ktxMagicBytes ++ ktxHeaderFromImage ⟨3, 1, RGB8, 1, 1, 9, d⟩ = ktxC64 := by
    rw [show ktxHeaderFromImage ⟨3, 1, RGB8, 1, 1, 9, d⟩ =
        ktxHeaderFromImage ⟨3, 1, RGB8, 1, 1, 9, fun _ => 0⟩ from rfl, hhdr0]
  have hfo : faceMipOffset 3 1 3 1 0 0 = 0 := by decide!
  have hr1 : List.range 1 = [0] := by decide
  have hmd3 : mipDim 3 0 = 3 := by decide
  have hmd1 : mipDim 1 0 = 1 := by decide
  have hkr9 : ktxRounding 9 = 3 := by decide
  have hbpp : bytesPerPixelOf RGB8 = 3 := rfl
  show ktxMagicBytes ++ ktxHeaderFromImage ⟨3, 1, RGB8, 1, 1, 9, d⟩ ++ _ = _
  rw [hhdr]
  simp only [hr1, List.flatMap_cons, List.flatMap_nil, List.append_nil, hmd3, hmd1, hbpp]
  norm_num [hkr9, hfo, List.append_assoc]

theorem forFold_one {α : Type _} (f : Nat → α → α) (a : α) : forFold 1 f a = f 0 a := rfl

theorem ktxC64_length : ktxC64.length = 64 := by decide

/-- The saved 3×1 file in right-associated form (the row, face and mip
paddings merged into one run of nine zero bytes). -/
theorem ktx31_file_norm (d : Nat → Nat) :
    ktxC64 ++ u32le 9 ++ (List.range 9).map d ++ List.replicate 3 0 ++
      List.replicate 3 0 ++ List.replicate 3 0 =
    ktxC64 ++ (u32le 9 ++ ((List.range 9).map d ++ List.replicate 9 0)) := by
  simp [List.append_assoc]

theorem ktx31N_read (d : Nat → Nat) (k v : Nat) (hk : k + 3 < 64)
    (hv : getU32 ktxC64 k = v) :
    getU32 (ktxC64 ++ (u32le 9 ++ ((List.range 9).map d ++ List.replicate 9 0))) k = v := by
  rw [getU32_append_left _ _ _ (by rw [ktxC64_length]; omega)]
  exact hv

theorem ktx31N_at (d : Nat → Nat) (p : Nat) (h1 : 64 ≤ p) (h2 : p < 68) :
    (ktxC64 ++ (u32le 9 ++ ((List.range 9).map d ++ List.replicate 9 0))).getD p 0 = (u32le 9).getD (p - 64) 0 := by
  rw [List.getD_append_right ktxC64 _ 0 p (by rw [ktxC64_length]; omega), ktxC64_length]
  rw [List.getD_append _ _ _ _ (by simp [u32le]; omega)]

theorem ktx31N_g64 (d : Nat → Nat) : getU32 (ktxC64 ++ (u32le 9 ++ ((List.range 9).map d ++ List.replicate 9 0))) 64 = 9 := by
  unfold getU32
  rw [ktx31N_at d 64 (by omega) (by omega), ktx31N_at d 65 (by omega) (by omega),
      ktx31N_at d 66 (by omega) (by omega), ktx31N_at d 67 (by omega) (by omega)]
  decide

theorem ktx31N_data (d : Nat → Nat) (i : Nat) (hi : i < 9) :
    (ktxC64 ++ (u32le 9 ++ ((List.range 9).map d ++ List.replicate 9 0))).getD (68 + i) 0 = d i := by
  rw [List.getD_append_right ktxC64 _ 0 (68 + i) (by rw [ktxC64_length]; omega), ktxC64_length]
  have h1 : 68 + i - 64 = 4 + i := by omega
  rw [h1]
  rw [List.getD_append_right (u32le 9) _ 0 (4 + i) (by simp [u32le])]
  have h2 : 4 + i - (u32le 9).length = i := by simp [u32le]
  rw [h2]
  rw [List.getD_append _ _ _ _ (by simp [List.length_map, List.length_range]; omega)]
  exact map_range_getD d 9 i hi

theorem ktx31_load_eval (g d : Nat → Nat) :
    imageLoadKtx g imgNull (ktxC64 ++ (u32le 9 ++ ((List.range 9).map d ++ List.replicate 9 0))) =
      (true, ⟨3, 1, RGB8, 1, 1, 9,
        writeRange g 0 9
          (fun t => (ktxC64 ++ (u32le 9 ++ ((List.range 9).map d ++ List.replicate 9 0))).getD (68 + t) 0)⟩) := by
  have h28 := ktx31N_read d 28 36221 (by omega) (by decide)
  have h36 := ktx31N_read d 36 3 (by omega) (by decide)
  have h40 := ktx31N_read d 40 1 (by omega) (by decide)
  have h52 := ktx31N_read d 52 1 (by omega) (by decide)
  have h56 := ktx31N_read d 56 1 (by omega) (by decide)
  have h60 := ktx31N_read d 60 0 (by omega) (by decide)
  have h64 := ktx31N_g64 d
  have htake : (ktxC64 ++ (u32le 9 ++ ((List.range 9).map d ++ List.replicate 9 0))).take 12 = ktxMagicBytes := by
    rw [List.take_append_of_le_length (by rw [ktxC64_length]; omega)]
    decide
  have htf : translateKtxFormat 36221 = RGB8 := by decide
  have hmd3 : mipDim 3 0 = 3 := by decide
  have hmd1 : mipDim 1 0 = 1 := by decide
  have hkr9 : ktxRounding 9 = 3 := by decide
  have hcs : chainSize 3 1 3 1 = 9 := by decide
  have hfo : faceMipOffset 3 1 3 1 0 0 = 0 := by decide!
  have hbpp : bytesPerPixelOf RGB8 = 3 := rfl
  simp only [imageLoadKtx, htake, h28, h36, h40, h52, h56, h60, htf]
  norm_num [forFold_one, h64, hmd3, hmd1, hkr9, hcs, hfo, hbpp]
  decide

/-- C4 as amended and the round trip: for the 3×1 RGB8 single-face
single-mip image the saved KTX file is the 64 header bytes, the u32
faceSize field holding 9 (unpadded; the claim, following spec E6, says
12), the 9 payload bytes, then 3 zero bytes of row rounding, 3 of face
rounding and 3 of mip rounding; reloading the written bytes succeeds and
reproduces the image bit-exactly. `g` is the arbitrary initial contents
of the loader's `malloc` buffer. -/
theorem C4_ktx_rowpad_roundtrip (g d : Nat → Nat) :
    imageSaveKtx ⟨3, 1, RGB8, 1, 1, 9, d⟩ =
      ktxC64 ++ u32le 9 ++ (List.range 9).map d ++ List.replicate 3 0 ++
        List.replicate 3 0 ++ List.replicate 3 0 ∧
    getU32 (imageSaveKtx ⟨3, 1, RGB8, 1, 1, 9, d⟩) 64 = 9 ∧
    (imageLoadKtx g imgNull (imageSaveKtx ⟨3, 1, RGB8, 1, 1, 9, d⟩)).1 = true ∧
    Image.Eqv (imageLoadKtx g imgNull (imageSaveKtx ⟨3, 1, RGB8, 1, 1, 9, d⟩)).2
      ⟨3, 1, RGB8, 1, 1, 9, d⟩ := by
  rw [ktx31_save_split, ktx31_file_norm]
  rw [ktx31_load_eval]
  refine ⟨rfl, ktx31N_g64 d, rfl, rfl, rfl, rfl, rfl, rfl, rfl, ?_⟩
  intro i hi
  have hi2 : i < 9 := hi
  dsimp only
  rw [writeRange_in _ _ _ _ _ (by omega) (by omega)]
  have hi0 : i - 0 = i := by omega
  rw [hi0, ktx31N_data d i hi2]

/-! ## HDR codec loader (`imageLoadHdr`, lines 3542-3732) -/

def HDR_MAGIC : Nat := 0x41523F23

/-- The bytes of `HDR_MAGIC_FULL` ("#?RADIANCE"). -/
def hdrMagicFull : List Nat := [35, 63, 82, 65, 68, 73, 65, 78, 67, 69]

/-- Model of `fgets(buf, 128, fp)`: collect up to 127 bytes, stopping
after a newline or at end of file; returns the line (newline included)
and the next read position. -/
def fgetsAux (bs : List Nat) : Nat → Nat → (List Nat × Nat)
  | 0, pos => ([], pos)
  | fuel + 1, pos =>
      if pos < bs.length then
        if bs.getD pos 0 = 10 then ([10], pos + 1)
        else
          let r := fgetsAux bs fuel (pos + 1)
          (bs.getD pos 0 :: r.1, r.2)
      else ([], pos)

def fgetsLine (bs : List Nat) (pos : Nat) : List Nat × Nat := fgetsAux bs 127 pos

/-- The header-line loop of lines 3566-3591: read up to 20 lines,
stopping after a line that is empty or starts with a newline. The
FORMAT / GAMMA / EXPOSURE matches only set `HdrHeader` fields that the
function never reads afterwards (`formatDefined` merely warns), so only
the cursor movement is modelled. -/
def hdrSkipHeader (bs : List Nat) : Nat → Nat → Nat
  | 0, pos => pos
  | ii + 1, pos =>
      let l := fgetsLine bs pos
      if l.1.getD 0 0 = 0 ∨ l.1.getD 0 0 = 10 then l.2
      else hdrSkipHeader bs ii l.2

def scanWs (line : List Nat) : Nat → Nat → Nat
  | 0, pos => pos
  | f + 1, pos =>
      if line.getD pos 0 = 32 ∨ line.getD pos 0 = 9 ∨ line.getD pos 0 = 13 then
        scanWs line f (pos + 1)
      else pos

def scanDigits (line : List Nat) : Nat → Nat → Nat → (Nat × Nat)
  | 0, pos, acc => (acc, pos)
  | f + 1, pos, acc =>
      if 48 ≤ line.getD pos 0 ∧ line.getD pos 0 ≤ 57 then
        scanDigits line f (pos + 1) (acc * 10 + (line.getD pos 0 - 48))
      else (acc, pos)

/-- `sscanf` `%d` at `pos` of the line: skip whitespace, an optional
sign, then at least one digit. -/
def scanInt (line : List Nat) (pos : Nat) : Option (ℤ × Nat) :=
  let p1 := scanWs line line.length pos
  let p2 := if line.getD p1 0 = 45 ∨ line.getD p1 0 = 43 then p1 + 1 else p1
  if 48 ≤ line.getD p2 0 ∧ line.getD p2 0 ≤ 57 then
    let r := scanDigits line line.length p2 0
    some (if line.getD p1 0 = 45 then -(r.1 : ℤ) else (r.1 : ℤ), r.2)
  else none

/-- `sscanf(buf, "-Y %d +X %d", &height, &width)` (line 3606). -/
def hdrParseSize (line : List Nat) : Option (ℤ × ℤ) :=
  if line.getD 0 0 = 45 ∧ line.getD 1 0 = 89 then
    match scanInt line 2 with
    | none => none
    | some (h, p) =>
        let p2 := scanWs line line.length p
        if line.getD p2 0 = 43 ∧ line.getD (p2 + 1) 0 = 88 then
          match scanInt line (p2 + 2) with
          | none => none
          | some (w, _) => some (h, w)
        else none
  else none

/-- One colour plane of an RLE scanline (lines 3658-3692): `ptr` (the
middle component) walks the shared scanline buffer until `ptrEnd`; an RLE
chunk (first byte over 128) repeats the second byte, a normal chunk
stores the second byte and then `count - 1` further bytes straight from
the file. Every iteration advances `ptr` by at least one, so `ptrEnd`
steps of fuel reach the loop exit. State: (file position, ptr, scanline
buffer). -/
def hdrPlane (bs : List Nat) (ptrEnd : Nat) :
    Nat → Nat × Nat × (Nat → Nat) → Nat × Nat × (Nat → Nat)
  | 0, st => st
  | fuel + 1, st =>
      if st.2.1 < ptrEnd then
        let pos := st.1
        let ptr := st.2.1
        let sl := st.2.2
        let r0 := bs.getD pos 0
        let r1 := bs.getD (pos + 1) 0
        if 128 < r0 then
          hdrPlane bs ptrEnd fuel
            (pos + 2, ptr + (r0 - 128), writeRange sl ptr (r0 - 128) (fun _ => r1))
        else if r0 ≤ 1 then
          hdrPlane bs ptrEnd fuel (pos + 2, ptr + 1, writeRange sl ptr 1 (fun _ => r1))
        else
          hdrPlane bs ptrEnd fuel
            (pos + 2 + (r0 - 1), ptr + r0,
             writeRange (writeRange sl ptr 1 (fun _ => r1)) (ptr + 1) (r0 - 1)
               (fun t => bs.getD (pos + 2 + t) 0))
      else st

/-- The RLE decode loop (lines 3653-3715): per scanline the four planes
are decoded into the shared scanline buffer (initial contents `gsl`, a
stack `alloca` reused across scanlines) with one running `ptr`, then the
planes are interleaved into the destination row; a 4-byte scanline header
is read between scanlines. State: (file position, scanline buffer,
destination buffer). -/
def hdrRleData (bs : List Nat) (g gsl : Nat → Nat) (width rows pos0 : Nat) : Nat → Nat :=
  (forFold rows (fun y st =>
    let dec := forFold 4 (fun ii st2 => hdrPlane bs (width * (ii + 1)) (width * (ii + 1)) st2)
      (st.1, 0, st.2.1)
    let data2 := writeRange st.2.2 (y * (width * 4)) (width * 4)
      (fun t => dec.2.2 (t / 4 + t % 4 * width))
    let pos2 := if y + 1 < rows then dec.1 + 4 else dec.1
    (pos2, dec.2.2, data2)) (pos0, gsl, g)).2.2

/-- `imageLoadHdr` (lines 3542-3732). `g` is the `malloc` buffer's
arbitrary initial contents, `gsl` the scanline `alloca`'s; `gw`/`gh`
stand for the UNINITIALISED C locals `width`/`height` kept when the
size-line `sscanf` fails (the code only DEBUG_CHECKs the count). Machine
arithmetic on the parsed int32 dimensions keeps the C uint32 casts
(mod 2^32). The only failure path is the magic check. -/
def imageLoadHdr (g gsl : Nat → Nat) (gw gh : ℤ) (dst : Image) (bs : List Nat) :
    Bool × Image :=
  if (List.range 10).map (fun k => (fgetsLine bs 0).1.getD k 0) ≠ hdrMagicFull then
    (false, dst)
  else
    let lsize := fgetsLine bs (hdrSkipHeader bs 20 (fgetsLine bs 0).2)
    let wh := (hdrParseSize lsize.1).getD (gh, gw)
    let height := wh.1
    let width := wh.2
    let dataSize := ((width * height * 4) % 4294967296).toNat
    let pos := lsize.2
    let rows := ((height - 1) % 4294967296 + 1).toNat
    let data :=
      if width < 8 ∨ 32767 < width ∨ bs.getD pos 0 ≠ 2 ∨ bs.getD (pos + 1) 0 ≠ 2 ∨
          bs.getD (pos + 2) 0 &&& 128 ≠ 0 then
        writeRange (writeRange g 0 4 (fun t => bs.getD (pos + t) 0)) 4 (dataSize - 4)
          (fun t => bs.getD (pos + 4 + t) 0)
      else
        hdrRleData bs g gsl width.toNat rows (pos + 4)
    (true, ⟨(width % 4294967296).toNat, (height % 4294967296).toNat, RGBE, 1, 1,
      dataSize, data⟩)

/-! ## TGA codec loader (`imageLoadTga` lines 3734-3871, `isTga` lines
3873-3893) and the load dispatch (`imageLoad`, lines 3895-3957) -/

def TGA_IT_RGB : Nat := 2
def TGA_IT_RLE : Nat := 8
def TGA_DESC_HORIZONTAL : Nat := 16
def TGA_DESC_VERTICAL : Nat := 32

/-- The RLE pixel loop of lines 3797-3838: while fewer than `numPixels`
pixels are written, read a header byte and one pixel, then either repeat
that pixel `count` more times (high bit set) or read `count` further
pixels from the file. Every iteration writes at least one pixel, so
`numPixels` fuel steps reach the loop exit. State: (file position,
pixels written, destination buffer). -/
def tgaRleDecode (bs : List Nat) (B numPixels : Nat) :
    Nat → Nat × Nat × (Nat → Nat) → Nat × Nat × (Nat → Nat)
  | 0, st => st
  | fuel + 1, st =>
      if st.2.1 < numPixels then
        let pos := st.1
        let n := st.2.1
        let hdr := bs.getD pos 0
        let count := hdr &&& 127
        let data1 := writeRange st.2.2 (n * B) B (fun t => bs.getD (pos + 1 + t) 0)
        if hdr &&& 128 ≠ 0 then
          tgaRleDecode bs B numPixels fuel
            (pos + 1 + B, n + 1 + count,
             forFold count (fun k dd =>
               writeRange dd ((n + 1 + k) * B) B (fun t => bs.getD (pos + 1 + t) 0)) data1)
        else
          tgaRleDecode bs B numPixels fuel
            (pos + 1 + B + count * B, n + 1 + count,
             forFold count (fun k dd =>
               writeRange dd ((n + 1 + k) * B) B
                 (fun t => bs.getD (pos + 1 + B + k * B + t) 0)) data1)
      else st

/-- `imageLoadTga` (lines 3734-3871). Header fields at their fixed byte
offsets; fails unless the image type has the true-color bit and the
depth is 24 or 32. The final flips reproduce lines 3858-3865: FLIP_Y
when the HORIZONTAL descriptor bit is set, FLIP_X when the VERTICAL bit
is clear (the one face is face 0). `g` is the `malloc` buffer's
arbitrary initial contents. -/
def imageLoadTga (g : Nat → Nat) (dst : Image) (bs : List Nat) : Bool × Image :=
  if bs.getD 2 0 &&& TGA_IT_RGB = 0 then (false, dst)
  else if bs.getD 16 0 ≠ 24 ∧ bs.getD 16 0 ≠ 32 then (false, dst)
  else
    let width := bs.getD 12 0 + 256 * bs.getD 13 0
    let height := bs.getD 14 0 + 256 * bs.getD 15 0
    let format := if bs.getD 16 0 = 24 then BGR8 else BGRA8
    let numBytesPerPixel := bs.getD 16 0 / 8
    let numPixels := width * height
    let dataSize := numPixels * numBytesPerPixel
    let start := 18 + bs.getD 0 0 + (bs.getD 1 0 &&& 1) * (bs.getD 5 0 + 256 * bs.getD 6 0)
    let data :=
      if bs.getD 2 0 &&& TGA_IT_RLE ≠ 0 then
        (tgaRleDecode bs numBytesPerPixel numPixels numPixels (start, 0, g)).2.2
      else
        writeRange g 0 dataSize (fun t => bs.getD (start + t) 0)
    (true, imageTransformFlips (bs.getD 17 0 &&& TGA_DESC_VERTICAL == 0)
      (bs.getD 17 0 &&& TGA_DESC_HORIZONTAL != 0) 0
      ⟨width, height, format, 1, 1, dataSize, data⟩)

/-- `isTga` (lines 3873-3893) on the first four file bytes read as a
little-endian u32. -/
def isTga (magic : Nat) : Bool :=
  if magic / 65536 % 256 = 1 ∨ magic / 65536 % 256 = 9 then magic / 256 % 256 == 1
  else if magic / 65536 % 256 = 2 ∨ magic / 65536 % 256 = 3 ∨
      magic / 65536 % 256 = 10 ∨ magic / 65536 % 256 = 11 then magic / 256 % 256 == 0
  else false

/-- The magic dispatch of `imageLoad` (lines 3920-3942): DDS, HDR, KTX or
TGA by the first four bytes, otherwise failure with the destination
untouched. -/
def imageLoadRaw (g gsl : Nat → Nat) (gw gh : ℤ) (dst : Image) (bs : List Nat) :
    Bool × Image :=
  if getU32 bs 0 = DDS_MAGIC then imageLoadDds g dst bs
  else if getU32 bs 0 = HDR_MAGIC then imageLoadHdr g gsl gw gh dst bs
  else if getU32 bs 0 = KTX_MAGIC_SHORT then imageLoadKtx g dst bs
  else if isTga (getU32 bs 0) then imageLoadTga g dst bs
  else (false, dst)

/-- `imageLoad` (lines 3895-3957): dispatch on the magic, propagate
loader failure (the destination holds whatever the loader left, which on
failure is its original contents), then convert in place when a
different target format was requested (the in-place `imageConvert`
overload of line 1540, whose same-format fast path is not taken here). -/
def imageLoad (g gsl : Nat → Nat) (gw gh : ℤ) (dst : Image) (bs : List Nat)
    (convertTo : TextureFormat) : Bool × Image :=
  if (imageLoadRaw g gsl gw gh dst bs).1 = false then
    (false, (imageLoadRaw g gsl gw gh dst bs).2)
  else if convertTo ≠ Unknown ∧ (imageLoadRaw g gsl gw gh dst bs).2.m_format ≠ convertTo then
    (true, imageConvert convertTo (imageLoadRaw g gsl gw gh dst bs).2)
  else (true, (imageLoadRaw g gsl gw gh dst bs).2)

/-- `imageCubemapFromLatLong` (lines 2410-2544). The two texel/vector
mapping helpers it calls (`texelCoordToVec`, `latLongFromVec`) live in
cmft/cubemaputils.h, which is not among the staged sources; the whole
per-pixel sampling of lines 2448-2510 (nearest or bilinear) enters as the
parameter `sample`, mapping destination (face, x, y) to the canonical
pixel it produces. Everything else is from the source: the
`imageIsLatLong` guard deciding failure before anything is allocated or
written (lines 2412-2415), the face-size arithmetic (half the source
height, rounded up), the RGBA32F working copy, alpha forced to 1, and
the final conversion back to the source format. -/
def imageCubemapFromLatLong (sample : Nat → Nat → Nat → Quad) (dst src : Image) :
    Bool × Image :=
  if ¬ imageIsLatLong src then (false, dst)
  else
    let srcRgba := if src.m_format = RGBA32F then src else imageToRgba32f src
    let dstFaceSize := (srcRgba.m_height + 1) / 2
    let dstPitch := dstFaceSize * 16
    let dstFaceDataSize := dstPitch * dstFaceSize
    let result : Image := ⟨dstFaceSize, dstFaceSize, RGBA32F, 1, 6, dstFaceDataSize * 6,
      fun i =>
        let q := sample (i / dstFaceDataSize) (i % dstPitch / 16) (i % dstFaceDataSize / dstPitch)
        (f32bytes q.r ++ f32bytes q.g ++ f32bytes q.b ++ f32bytes 1).getD (i % 16) 0⟩
    if src.m_format = RGBA32F then (true, result)
    else (true, imageConvert src.m_format result)

/-! ### Claim C9 -/

/-- C9: every embedded operation that takes an output image leaves the
destination exactly as it was whenever it reports failure — the four
codec loaders (DDS, KTX, HDR, TGA), the magic dispatch `imageLoad`
(including failure propagated out of a loader), and the cube remaps
(`imageCubemapFromCross`, `imageHStripFromCubemap`,
`imageCubemapFromHStrip`, `imageCubemapFromLatLong`); all of them return
the untouched `dst` on every `return false` path, since the source only
commits a result through the final `imageMove`. The last two conjuncts
exhibit a concrete failing input (a three-byte file of unknown type)
realising the hypothesis for the dispatch. -/
theorem C9_failure_preserves_dst :
    (∀ (g : Nat → Nat) (dst : Image) (bs : List Nat),
      (imageLoadDds g dst bs).1 = false → (imageLoadDds g dst bs).2 = dst) ∧
    (∀ (g : Nat → Nat) (dst : Image) (bs : List Nat),
      (imageLoadKtx g dst bs).1 = false → (imageLoadKtx g dst bs).2 = dst) ∧
    (∀ (g gsl : Nat → Nat) (gw gh : ℤ) (dst : Image) (bs : List Nat),
      (imageLoadHdr g gsl gw gh dst bs).1 = false →
        (imageLoadHdr g gsl gw gh dst bs).2 = dst) ∧
    (∀ (g : Nat → Nat) (dst : Image) (bs : List Nat),
      (imageLoadTga g dst bs).1 = false → (imageLoadTga g dst bs).2 = dst) ∧
    (∀ (g gsl : Nat → Nat) (gw gh : ℤ) (dst : Image) (bs : List Nat)
      (fmt : TextureFormat),
      (imageLoad g gsl gw gh dst bs fmt).1 = false →
        (imageLoad g gsl gw gh dst bs fmt).2 = dst) ∧
    (∀ (g : Nat → Nat) (dst src : Image),
      (imageCubemapFromCross g dst src).1 = false →
        (imageCubemapFromCross g dst src).2 = dst) ∧
    (∀ (g : Nat → Nat) (dst src : Image),
      (imageHStripFromCubemap g dst src).1 = false →
        (imageHStripFromCubemap g dst src).2 = dst) ∧
    (∀ (g : Nat → Nat) (dst src : Image),
      (imageCubemapFromHStrip g dst src).1 = false →
        (imageCubemapFromHStrip g dst src).2 = dst) ∧
    (∀ (sample : Nat → Nat → Nat → Quad) (dst src : Image),
      (imageCubemapFromLatLong sample dst src).1 = false →
        (imageCubemapFromLatLong sample dst src).2 = dst) ∧
    (imageLoad (fun _ => 0) (fun _ => 0) 0 0 imgNull [1, 2, 3] Unknown).1 = false ∧
    (imageLoad (fun _ => 0) (fun _ => 0) 0 0 imgNull [1, 2, 3] Unknown).2 = imgNull := by
  have hdds : ∀ (g : Nat → Nat) (dst : Image) (bs : List Nat),
      (imageLoadDds g dst bs).1 = false → (imageLoadDds g dst bs).2 = dst := by
    intro g dst bs h
    unfold imageLoadDds at h ⊢
    split_ifs at h ⊢ <;> first | rfl | simp at h
  have hktx : ∀ (g : Nat → Nat) (dst : Image) (bs : List Nat),
      (imageLoadKtx g dst bs).1 = false → (imageLoadKtx g dst bs).2 = dst := by
    intro g dst bs h
    unfold imageLoadKtx at h ⊢
    split_ifs at h ⊢ <;> first | rfl | simp at h
  have hhdr : ∀ (g gsl : Nat → Nat) (gw gh : ℤ) (dst : Image) (bs : List Nat),
      (imageLoadHdr g gsl gw gh dst bs).1 = false →
        (imageLoadHdr g gsl gw gh dst bs).2 = dst := by
    intro g gsl gw gh dst bs h
    unfold imageLoadHdr at h ⊢
    split_ifs at h ⊢ <;> first | rfl | simp at h
  have htga : ∀ (g : Nat → Nat) (dst : Image) (bs : List Nat),
      (imageLoadTga g dst bs).1 = false → (imageLoadTga g dst bs).2 = dst := by
    intro g dst bs h
    unfold imageLoadTga at h ⊢
    split_ifs at h ⊢ <;> first | rfl | simp at h
  have hraw : ∀ (g gsl : Nat → Nat) (gw gh : ℤ) (dst : Image) (bs : List Nat),
      (imageLoadRaw g gsl gw gh dst bs).1 = false →
        (imageLoadRaw g gsl gw gh dst bs).2 = dst := by
    intro g gsl gw gh dst bs h
    unfold imageLoadRaw at h ⊢
    split_ifs at h ⊢
    · exact hdds g dst bs h
    · exact hhdr g gsl gw gh dst bs h
    · exact hktx g dst bs h
    · exact htga g dst bs h
    · rfl
  have hload : ∀ (g gsl : Nat → Nat) (gw gh : ℤ) (dst : Image) (bs : List Nat)
      (fmt : TextureFormat),
      (imageLoad g gsl gw gh dst bs fmt).1 = false →
        (imageLoad g gsl gw gh dst bs fmt).2 = dst := by
    intro g gsl gw gh dst bs fmt h
    unfold imageLoad at h ⊢
    split_ifs at h ⊢ with h1 <;>
      first | exact hraw g gsl gw gh dst bs h1 | simp at h
  have hcross : ∀ (g : Nat → Nat) (dst src : Image),
      (imageCubemapFromCross g dst src).1 = false →
        (imageCubemapFromCross g dst src).2 = dst := by
    intro g dst src h
    simp only [imageCubemapFromCross] at h ⊢
    split_ifs at h ⊢ <;> first | rfl | simp_all
  have hhs : ∀ (g : Nat → Nat) (dst src : Image),
      (imageHStripFromCubemap g dst src).1 = false →
        (imageHStripFromCubemap g dst src).2 = dst := by
    intro g dst src h
    unfold imageHStripFromCubemap at h ⊢
    split_ifs at h ⊢ <;> first | rfl | simp at h
  have hchs : ∀ (g : Nat → Nat) (dst src : Image),
      (imageCubemapFromHStrip g dst src).1 = false →
        (imageCubemapFromHStrip g dst src).2 = dst := by
    intro g dst src h
    unfold imageCubemapFromHStrip at h ⊢
    split_ifs at h ⊢ <;> first | rfl | simp at h
  have hll : ∀ (sample : Nat → Nat → Nat → Quad) (dst src : Image),
      (imageCubemapFromLatLong sample dst src).1 = false →
        (imageCubemapFromLatLong sample dst src).2 = dst := by
    intro sample dst src h
    simp only [imageCubemapFromLatLong] at h ⊢
    split_ifs at h ⊢ <;> first | rfl | simp_all
  exact ⟨hdds, hktx, hhdr, htga, hload, hcross, hhs, hchs, hll, rfl, rfl⟩

end cmft
